import Mathlib

/-!
Verification of the auto-support analyzer (`SupportSpotsGenerator.cpp`).

The C++ source is embedded shallowly over exact rationals `ℚ`:

* `float`/`double` arithmetic is modelled by exact rational arithmetic;
  decimal literals of the source (`0.1f`, `0.3f`, ...) become the exact
  rationals they denote.
* the two transcendental library calls (`sqrt` inside Eigen's `norm` /
  `normalized` and `atan2` inside `Slic3r::angle`) are supplied by an
  explicit oracle `MathEnv`; theorems that need properties of the square
  root state them as hypotheses at exactly the points where they are used,
  and witnesses instantiate the oracle with a concrete table function.
* `std::vector` indexing that the source performs without a bounds check
  (a crash / UB on degenerate input) is modelled by `Option`: `none` is
  the failure outcome.
* rational division by zero is total in Lean (`q / 0 = 0`); every place
  where the source could divide by zero is either guarded by the same
  `EPSILON` guards as the source or noted in a comment.
* `tbb::parallel_for` loops are modelled sequentially in index order (the
  canonical schedule); the spec (§5) declares last-write-wins races on the
  raster acceptable.
-/

namespace SupportSpots

/-- Two-dimensional vector over `ℚ` (models Eigen `Vec2f`). -/
structure Vec2 where
  x : ℚ
  y : ℚ
deriving DecidableEq

/-- Three-dimensional vector over `ℚ` (models Eigen `Vec3f`). -/
structure Vec3 where
  x : ℚ
  y : ℚ
  z : ℚ
deriving DecidableEq

instance : Add Vec2 := ⟨fun a b => ⟨a.x + b.x, a.y + b.y⟩⟩

instance : Sub Vec2 := ⟨fun a b => ⟨a.x - b.x, a.y - b.y⟩⟩

instance : Zero Vec2 := ⟨⟨0, 0⟩⟩

instance : SMul ℚ Vec2 := ⟨fun q v => ⟨q * v.x, q * v.y⟩⟩

instance : Add Vec3 := ⟨fun a b => ⟨a.x + b.x, a.y + b.y, a.z + b.z⟩⟩

instance : Sub Vec3 := ⟨fun a b => ⟨a.x - b.x, a.y - b.y, a.z - b.z⟩⟩

instance : Zero Vec3 := ⟨⟨0, 0, 0⟩⟩

instance : SMul ℚ Vec3 := ⟨fun q v => ⟨q * v.x, q * v.y, q * v.z⟩⟩

/-- Dot product of 2-D vectors. -/
def Vec2.dot (a b : Vec2) : ℚ := a.x * b.x + a.y * b.y

/-- z-component of the 2-D cross product `a × b`. -/
def Vec2.cross (a b : Vec2) : ℚ := a.x * b.y - a.y * b.x

/-- Squared Euclidean norm (Eigen `squaredNorm`). -/
def Vec2.sqNorm (a : Vec2) : ℚ := a.x * a.x + a.y * a.y

/-- Componentwise product (Eigen `cwiseProduct`). -/
def Vec2.cwiseProduct (a b : Vec2) : Vec2 := ⟨a.x * b.x, a.y * b.y⟩

/-- Componentwise absolute value (Eigen `cwiseAbs`). -/
def Vec2.cwiseAbs (a : Vec2) : Vec2 := ⟨|a.x|, |a.y|⟩

/-- Dot product of 3-D vectors. -/
def Vec3.dot (a b : Vec3) : ℚ := a.x * b.x + a.y * b.y + a.z * b.z

/-- Squared Euclidean norm of a 3-D vector. -/
def Vec3.sqNorm (a : Vec3) : ℚ := a.x * a.x + a.y * a.y + a.z * a.z

/-- First two components (Eigen `head<2>()`). -/
def Vec3.head2 (a : Vec3) : Vec2 := ⟨a.x, a.y⟩

/-- Lift a 2-D vector to 3-D (libslic3r `to_3d`). -/
def to3d (v : Vec2) (z : ℚ) : Vec3 := ⟨v.x, v.y, z⟩

/-- Oracle supplying the two transcendental functions used by the source:
`sqrt` (Eigen `norm`/`normalized`, `std::sqrt`) and `atan2`
(inside `Slic3r::angle`).  All embedded definitions are parametric in it. -/
structure MathEnv where
  sqrt : ℚ → ℚ
  atan2 : ℚ → ℚ → ℚ

/-- Euclidean norm of a 2-D vector through the oracle. -/
def norm2 (env : MathEnv) (v : Vec2) : ℚ := env.sqrt v.sqNorm

/-- Eigen `normalized()` for 2-D vectors: divide by the norm.  On the zero
vector the division is by zero (`q / 0 = 0` in `ℚ`; NaN in the source) —
claim C10 is exactly that the analyzer never normalizes a zero vector. -/
def normalized2 (env : MathEnv) (v : Vec2) : Vec2 :=
  let n := norm2 env v
  ⟨v.x / n, v.y / n⟩

/-- Euclidean norm of a 3-D vector through the oracle. -/
def norm3 (env : MathEnv) (v : Vec3) : ℚ := env.sqrt v.sqNorm

/-- Eigen `normalize()` for 3-D vectors. -/
def normalized3 (env : MathEnv) (v : Vec3) : Vec3 :=
  let n := norm3 env v
  ⟨v.x / n, v.y / n, v.z / n⟩

/-- `Slic3r::angle(v1, v2)`: signed angle between two 2-D vectors,
`atan2(cross(v1,v2), dot(v1,v2))`, through the oracle.
Modelled from the spec: the function body lives in `Geometry.hpp`, which is
not part of the provided sources; §4.3 of the spec describes it as the
signed angle between consecutive segment directions. -/
def angleQ (env : MathEnv) (v1 v2 : Vec2) : ℚ :=
  env.atan2 (Vec2.cross v1 v2) (Vec2.dot v1 v2)

/-- libslic3r `EPSILON` (1e-4). -/
def EPSILON : ℚ := 1 / 10000

/-- libslic3r `PI` constant, as the double value used by the source. -/
def PI : ℚ := 3.141592653589793

/-- libslic3r `SCALING_FACTOR`: scaled integer coordinates are converted to
millimetres by multiplication with `1e-6` (`unscale`). -/
def SCALING_FACTOR : ℚ := 1 / 1000000

/-- C++ `cast<int>` of a float: truncation toward zero. -/
def qtrunc (q : ℚ) : ℤ := if 0 ≤ q then ⌊q⌋ else -⌊-q⌋

/-- Unscale a scaled integer point (`unscaled(Point)`). -/
def unscaledPt (p : ℤ × ℤ) : Vec2 := ⟨p.1 * SCALING_FACTOR, p.2 * SCALING_FACTOR⟩

/-- Extrusion roles (`ExtrusionRole`), restricted to the tags the analyzer
inspects; every other tag behaves like `other` (the `default:` case). -/
inductive Role where
  | externalPerimeter
  | perimeter
  | bridgeInfill
  | solidInfill
  | topSolidInfill
  | internalInfill
  | gapFill
  | mixed
  | other
deriving DecidableEq

/-- Flow roles (`FlowRole`) the analyzer looks up on a region. -/
inductive FlowRole where
  | externalPerimeter
  | perimeter
  | infill
  | solidInfill
  | topSolidInfill
deriving DecidableEq

/-- `SupportSpotsGenerator::Params` — the flat parameter record (fields as
listed in spec §6; the struct itself is declared in the header, which is not
among the provided sources, but every field is read in the .cpp). -/
structure Params where
  bridge_distance : ℚ
  bridge_distance_decrease_by_curvature_factor : ℚ
  min_distance_between_support_points : ℚ
  support_points_interface_radius : ℚ
  filament_density : ℚ
  gravity_constant : ℚ
  max_acceleration : ℚ
  standard_extruder_conflict_force : ℚ
  malformations_additive_conflict_extruder_force : ℚ
  bed_adhesion_yield_strength : ℚ
  material_yield_strength : ℚ
deriving DecidableEq

/-- `SupportSpotsGenerator::SupportPoint`. -/
structure SupportPoint where
  position : Vec3
  force : ℚ
  direction : Vec3
deriving DecidableEq

/-- `SupportSpotsGenerator::Issues` — the ordered list of support points. -/
structure Issues where
  support_points : List SupportPoint
deriving DecidableEq

/-- `Slic3r::ExtrusionLine`: an oriented 2-D segment with cached length and
a back reference to the originating extrusion entity.  The raw pointer
`origin_entity` is replaced by an integer handle `origin` (assigned uniquely
per entity when flattening a layer, cf. spec §9); the two pieces of data the
analyzer ever reads through the pointer — `role()` and `min_mm3_per_mm()` —
are carried alongside. -/
structure ExtrusionLine where
  a : Vec2
  b : Vec2
  len : ℚ
  origin : ℕ
  originRole : Role
  originMm3 : ℚ
  support_point_generated : Bool := false
  malformation : ℚ := 0
deriving DecidableEq

instance : Inhabited ExtrusionLine := ⟨⟨0, 0, 0, 0, Role.other, 0, false, 0⟩⟩

/-- The `ExtrusionLine(a, b, entity)` constructor: caches
`len = (a - b).norm()`. -/
def mkLine (env : MathEnv) (a b : Vec2) (origin : ℕ) (role : Role) (mm3 : ℚ) :
    ExtrusionLine :=
  { a := a, b := b, len := env.sqrt (Vec2.sqNorm (a - b)), origin := origin,
    originRole := role, originMm3 := mm3 }

/-- `line.is_external_perimeter()`. -/
def ExtrusionLine.is_external_perimeter (l : ExtrusionLine) : Bool :=
  l.originRole = Role.externalPerimeter

/-- `ExtrusionPropertiesAccumulator` — accumulated unsupported distance and
curvature of the current extrusion path. -/
structure ExtrusionPropertiesAccumulator where
  distance : ℚ := 0
  curvature : ℚ := 0
  max_curvature : ℚ := 0
deriving DecidableEq

namespace ExtrusionPropertiesAccumulator

/-- `add_distance(dist)`. -/
def add_distance (acc : ExtrusionPropertiesAccumulator) (dist : ℚ) :
    ExtrusionPropertiesAccumulator :=
  { acc with distance := acc.distance + dist }

/-- `add_angle(ccw_angle)`. -/
def add_angle (acc : ExtrusionPropertiesAccumulator) (ccw_angle : ℚ) :
    ExtrusionPropertiesAccumulator :=
  { acc with
    curvature := acc.curvature + ccw_angle
    max_curvature := max acc.max_curvature (|acc.curvature + ccw_angle|) }

/-- `reset()`. -/
def reset (_ : ExtrusionPropertiesAccumulator) : ExtrusionPropertiesAccumulator :=
  ⟨0, 0, 0⟩

end ExtrusionPropertiesAccumulator

/-- `fabs(d) < t` where `d` may be the `+∞` returned for an empty previous
layer (`none`); `|+∞| < t` is false. -/
def absLtB (od : Option ℚ) (t : ℚ) : Bool :=
  match od with
  | none => false
  | some d => decide (|d| < t)

/-- `d > t` where `d` may be `+∞` (`none`); `+∞ > t` is true. -/
def gtB (od : Option ℚ) (t : ℚ) : Bool :=
  match od with
  | none => true
  | some d => decide (t < d)

/-- The bridging section of the per-segment loop of
`check_extrusion_entity_stability` (SupportSpotsGenerator.cpp:393-405).
Takes the signed distance of the segment's endpoint `b` from the previous
layer (already computed, `none` = `+∞`) and the bridging accumulator after
the angle update of line 385. -/
def bridgingCheck (params : Params) (flow_width layer_z : ℚ)
    (dist_from_prev_layer : Option ℚ) (line : ExtrusionLine)
    (acc : ExtrusionPropertiesAccumulator) (issues : List SupportPoint) :
    ExtrusionPropertiesAccumulator × ExtrusionLine × List SupportPoint :=
  if absLtB dist_from_prev_layer flow_width then
    (acc.reset, line, issues)
  else
    let acc := acc.add_distance line.len
    if acc.distance >
        params.bridge_distance /
          (1 + acc.max_curvature * params.bridge_distance_decrease_by_curvature_factor / PI) then
      (acc.reset, { line with support_point_generated := true },
        issues ++ [⟨⟨line.b.x, line.b.y, layer_z⟩, 0, ⟨0, 0, -1⟩⟩])
    else
      (acc, line, issues)

/-- Nearest point of the segment `l` to `p` by clamped projection.
Modelled from the spec: the acceleration structure behind
`AABBTreeLines::squared_distance_to_indexed_lines` is not among the provided
sources; §4.1 describes the query as the Euclidean distance to the nearest
segment of the indexed line set. -/
def segNearest (l : ExtrusionLine) (p : Vec2) : Vec2 :=
  let v := l.b - l.a
  let l2 := v.sqNorm
  if l2 = 0 then l.a
  else
    let t := max 0 (min 1 ((p - l.a).dot v / l2))
    l.a + t • v

/-- First index of a line of minimal squared distance to `p`, together with
the nearest point on it and the squared distance; `none` on an empty set
(the tree query reports "no hit", source line 87). -/
def nearestLineIdx (lines : List ExtrusionLine) (p : Vec2) : Option (ℕ × Vec2 × ℚ) :=
  (List.range lines.length).foldl
    (fun best i =>
      match lines.get? i with
      | none => best
      | some l =>
        let np := segNearest l p
        let sq := (p - np).sqNorm
        match best with
        | none => some (i, np, sq)
        | some best' => if sq < best'.2.2 then some (i, np, sq) else best)
    none

/-- `LinesDistancer::signed_distance_from_lines` (source lines 83-98):
distance to the nearest line, negated iff `p` is to the left of it
(z-component of `(b-a) × (p-a)` positive).  Returns the distance, the
nearest line index and the nearest point; `none` models the `+∞` returned
for an empty line set. -/
def signed_distance_from_lines (env : MathEnv) (lines : List ExtrusionLine) (p : Vec2) :
    Option (ℚ × ℕ × Vec2) :=
  match nearestLineIdx lines p with
  | none => none
  | some (i, np, sq) =>
    let d := env.sqrt sq
    let line := lines.getD i default
    let v1 := line.b - line.a
    let v2 := p - line.a
    some (if v1.cross v2 > 0 then -d else d, i, np)

/-- `ExtrusionEntity`: either a single extrusion path (with role, loop flag,
`min_mm3_per_mm` and its polyline of scaled integer points) or a collection
of nested entities. -/
inductive Entity where
  | path (role : Role) (isLoop : Bool) (mm3 : ℚ) (pts : List (ℤ × ℤ))
  | coll (entities : List Entity)

/-- `ExtrusionEntity::role()`: a path's own role; a collection reports the
common role of its members, `erMixed` when they disagree. -/
def Entity.role : Entity → Role
  | .path r _ _ _ => r
  | .coll es =>
    match es.attach.map (fun x => x.1.role) with
    | [] => Role.other
    | r :: rs => rs.foldl (fun acc r' => if acc = r' then acc else Role.mixed) r
termination_by e => sizeOf e
decreasing_by
  simp_wf
  have h := List.sizeOf_lt_of_mem x.2
  omega

/-- `ExtrusionEntity::collect_points`: a path's polyline; a collection
concatenates its members' points. -/
def Entity.collect_points : Entity → List (ℤ × ℤ)
  | .path _ _ _ pts => pts
  | .coll es => (es.attach.map (fun x => x.1.collect_points)).flatten
termination_by e => sizeOf e
decreasing_by
  simp_wf
  have h := List.sizeOf_lt_of_mem x.2
  omega

/-- `ExtrusionEntity::min_mm3_per_mm`. -/
def Entity.min_mm3_per_mm : Entity → ℚ
  | .path _ _ mm3 _ => mm3
  | .coll es =>
    match es.attach.map (fun x => x.1.min_mm3_per_mm) with
    | [] => 0
    | m :: ms => ms.foldl min m
termination_by e => sizeOf e
decreasing_by
  simp_wf
  have h := List.sizeOf_lt_of_mem x.2
  omega

/-- `ExtrusionEntity::is_loop`. -/
def Entity.is_loop : Entity → Bool
  | .path _ l _ _ => l
  | .coll _ => false

/-- `ExtrusionEntity::is_collection`. -/
def Entity.is_collection : Entity → Bool
  | .path _ _ _ _ => false
  | .coll _ => true

/-- A `LayerRegion`: flow widths by flow role plus its perimeter and fill
entity collections (`perimeters.entities`, `fills.entities`). -/
structure Region where
  flow : FlowRole → ℚ
  perimeters : List Entity
  fills : List Entity

/-- A `Layer`: its `slice_z` and regions. -/
structure Layer where
  slice_z : ℚ
  regions : List Region

/-- A `PrintObject`: ordered layers, the scaled xy bounding-box size and the
scaled height. -/
structure PrintObject where
  layers : List Layer
  size : ℤ × ℤ
  height : ℤ

/-- `get_flow_width(region, role)` (source lines 289-308). -/
def get_flow_width (region : Region) (role : Role) : ℚ :=
  match role with
  | Role.bridgeInfill => region.flow FlowRole.externalPerimeter
  | Role.externalPerimeter => region.flow FlowRole.externalPerimeter
  | Role.gapFill => region.flow FlowRole.infill
  | Role.perimeter => region.flow FlowRole.perimeter
  | Role.solidInfill => region.flow FlowRole.solidInfill
  | Role.internalInfill => region.flow FlowRole.infill
  | Role.topSolidInfill => region.flow FlowRole.topSolidInfill
  | _ => region.flow FlowRole.perimeter

/-- Re-sampling of one input vertex pair of an extrusion path into
`ceil(dist / bridge_distance)` sub-segments (source lines 356-369). -/
def resamplePair (env : MathEnv) (params : Params) (origin : ℕ) (role : Role) (mm3 : ℚ)
    (start next : Vec2) : List ExtrusionLine :=
  let v0 := next - start
  let dist_to_next := env.sqrt v0.sqNorm
  let v := normalized2 env v0
  let lines_count : ℤ := ⌈dist_to_next / params.bridge_distance⌉
  let step_size := dist_to_next / (lines_count : ℚ)
  (List.range lines_count.toNat).map fun i : ℕ =>
    mkLine env (start + ((i : ℚ) * step_size) • v)
      (start + (((i : ℚ) + 1) * step_size) • v) origin role mm3

/-- Re-sampling of a whole path (source lines 353-369): a degenerate
zero-length line at the first point, then the re-sampled consecutive pairs. -/
def resamplePath (env : MathEnv) (params : Params) (origin : ℕ) (role : Role) (mm3 : ℚ)
    (upts : List Vec2) : List ExtrusionLine :=
  match upts with
  | [] => []
  | p0 :: rest =>
    mkLine env p0 p0 origin role mm3 ::
      ((List.zip (p0 :: rest) rest).map
        (fun pr => resamplePair env params origin role mm3 pr.1 pr.2)).flatten

/-- State of the per-segment loop of `check_extrusion_entity_stability`. -/
structure LocalLineState where
  bridging_acc : ExtrusionPropertiesAccumulator
  malformation_acc : ExtrusionPropertiesAccumulator
  out : List ExtrusionLine
  issues : List SupportPoint
deriving DecidableEq

/-- The `curr_angle` of iteration `i` of the per-segment loop (source lines
379-384): signed angle to the next segment's direction, `0` at the last. -/
def nextAngle (env : MathEnv) (lines : List ExtrusionLine) (i : ℕ)
    (current : ExtrusionLine) : ℚ :=
  match lines.get? (i + 1) with
  | some nxt => angleQ env (current.b - current.a) (nxt.b - nxt.a)
  | none => 0

/-- The scalar part of the signed-distance query. -/
def distScalar (env : MathEnv) (lines : List ExtrusionLine) (p : Vec2) : Option ℚ :=
  (signed_distance_from_lines env lines p).map (fun r => r.1)

/-- One iteration of the per-segment loop of
`check_extrusion_entity_stability` (source lines 377-419): angle update,
bridging test, malformation inheritance and hang check. -/
def checkLineStep (env : MathEnv) (params : Params) (flow_width layer_z : ℚ)
    (prevLines : List ExtrusionLine) (lines : List ExtrusionLine) (i : ℕ)
    (st : LocalLineState) : LocalLineState :=
  match lines.get? i with
  | none => st
  | some current0 =>
    let curr_angle := nextAngle env lines i current0
    let bAcc := st.bridging_acc.add_angle curr_angle
    let mAcc := st.malformation_acc.add_angle (max 0 curr_angle)
    let sd := signed_distance_from_lines env prevLines current0.b
    let od := distScalar env prevLines current0.b
    let (bAcc2, line1, issues2) :=
      bridgingCheck params flow_width layer_z od current0 bAcc st.issues
    let line2 :=
      if absLtB od (flow_width * 2) then
        match sd with
        | some (_, idx, _) =>
          { line1 with malformation :=
              line1.malformation + 9/10 * (prevLines.getD idx default).malformation }
        | none => line1
      else line1
    let (mAcc2, line3) :=
      if gtB od (flow_width * 3/10) then
        let mAcc' := mAcc.add_distance line2.len
        (mAcc', { line2 with malformation := line2.malformation +
            15/100 * (8/10 + 2/10 * mAcc'.max_curvature / (1 + 1/2 * mAcc'.distance)) })
      else (mAcc.reset, line2)
    { bridging_acc := bAcc2, malformation_acc := mAcc2,
      out := st.out ++ [line3], issues := issues2 }

/-- The whole per-segment loop: `bridging_acc` starts at
`bridge_distance + 1` (source line 373), returns the checked lines and the
emitted support points. -/
def checkLinesLoop (env : MathEnv) (params : Params) (flow_width layer_z : ℚ)
    (prevLines lines : List ExtrusionLine) : List ExtrusionLine × List SupportPoint :=
  let init : LocalLineState :=
    { bridging_acc := (ExtrusionPropertiesAccumulator.mk 0 0 0).add_distance
        (params.bridge_distance + 1)
      malformation_acc := ⟨0, 0, 0⟩
      out := []
      issues := [] }
  let final := (List.range lines.length).foldl
    (fun st i => checkLineStep env params flow_width layer_z prevLines lines i st) init
  (final.out, final.issues)

/-- `check_extrusion_entity_stability` (source lines 334-422): recurse
through collections; re-sample and analyze a single path.  `nid` is the next
fresh entity handle (models the distinct `origin_entity` pointers).  `none`
models the out-of-bounds `points[0]` access on a path without points. -/
def checkEntityStability (env : MathEnv) (params : Params) (layer_z : ℚ) (region : Region)
    (prevLines : List ExtrusionLine) :
    Entity → List ExtrusionLine → List SupportPoint → ℕ →
      Option (List ExtrusionLine × List SupportPoint × ℕ)
  | .coll es, outL, iss, nid =>
    es.attach.foldlM
      (fun acc x =>
        checkEntityStability env params layer_z region prevLines x.1 acc.1 acc.2.1 acc.2.2)
      (outL, iss, nid)
  | .path role _ mm3 pts, outL, iss, nid =>
    match pts with
    | [] => none
    | p :: rest =>
      let upts := (p :: rest).map unscaledPt
      let lines := resamplePath env params nid role mm3 upts
      let flow_width := get_flow_width region role
      let res := checkLinesLoop env params flow_width layer_z prevLines lines
      some (outL ++ res.1, iss ++ res.2, nid + 1)
termination_by e _ _ _ => sizeOf e
decreasing_by
  simp_wf
  have h := List.sizeOf_lt_of_mem x.2
  omega

/-- `IslandConnection`: overlap area with its first and second moment
accumulators (source lines 251-271). -/
structure IslandConnection where
  area : ℚ := 0
  centroid_accumulator : Vec3 := ⟨0, 0, 0⟩
  second_moment_of_area_accumulator : Vec2 := ⟨0, 0⟩
deriving DecidableEq

/-- `IslandConnection::add` (source lines 256-260). -/
def IslandConnection.add (c other : IslandConnection) : IslandConnection :=
  { area := c.area + other.area
    centroid_accumulator := c.centroid_accumulator + other.centroid_accumulator
    second_moment_of_area_accumulator :=
      c.second_moment_of_area_accumulator + other.second_moment_of_area_accumulator }

/-- `Island` (source lines 273-282): connections to the previous layer are
an association list keyed by previous-layer island index (models the
`unordered_map`, iterated in insertion order). -/
structure Island where
  connected_islands : List (ℕ × IslandConnection) := []
  volume : ℚ := 0
  volume_centroid_accumulator : Vec3 := ⟨0, 0, 0⟩
  sticking_area : ℚ := 0
  sticking_centroid_accumulator : Vec3 := ⟨0, 0, 0⟩
  sticking_second_moment_of_area_accumulator : Vec2 := ⟨0, 0⟩
  external_lines : List ExtrusionLine := []
deriving DecidableEq

/-- `LayerIslands` (source lines 284-287). -/
structure LayerIslands where
  islands : List Island := []
  layer_z : ℚ := 0
deriving DecidableEq

/-- `ObjectPart` accumulators (source lines 598-604). -/
structure ObjectPart where
  volume : ℚ := 0
  volume_centroid_accumulator : Vec3 := ⟨0, 0, 0⟩
  sticking_area : ℚ := 0
  sticking_centroid_accumulator : Vec3 := ⟨0, 0, 0⟩
  sticking_second_moment_of_area_accumulator : Vec2 := ⟨0, 0⟩
deriving DecidableEq

/-- The `ObjectPart(const Island&)` constructor (source lines 608-614). -/
def ObjectPart.ofIsland (island : Island) : ObjectPart :=
  { volume := island.volume
    volume_centroid_accumulator := island.volume_centroid_accumulator
    sticking_area := island.sticking_area
    sticking_centroid_accumulator := island.sticking_centroid_accumulator
    sticking_second_moment_of_area_accumulator :=
      island.sticking_second_moment_of_area_accumulator }

/-- `ObjectPart::add` (source lines 616-622). -/
def ObjectPart.add (p other : ObjectPart) : ObjectPart :=
  { volume := p.volume + other.volume
    volume_centroid_accumulator :=
      p.volume_centroid_accumulator + other.volume_centroid_accumulator
    sticking_area := p.sticking_area + other.sticking_area
    sticking_centroid_accumulator :=
      p.sticking_centroid_accumulator + other.sticking_centroid_accumulator
    sticking_second_moment_of_area_accumulator :=
      p.sticking_second_moment_of_area_accumulator +
        other.sticking_second_moment_of_area_accumulator }

/-- `ObjectPart::add_support_point` (source lines 624-629). -/
def ObjectPart.add_support_point (p : ObjectPart) (position : Vec3) (sticking_area : ℚ) :
    ObjectPart :=
  { p with
    sticking_area := p.sticking_area + sticking_area
    sticking_centroid_accumulator :=
      p.sticking_centroid_accumulator + sticking_area • position
    sticking_second_moment_of_area_accumulator :=
      p.sticking_second_moment_of_area_accumulator +
        sticking_area • Vec2.cwiseProduct position.head2 position.head2 }

/-- `compute_elastic_section_modulus` (source lines 639-651). -/
def compute_elastic_section_modulus (env : MathEnv) (line_dir : Vec2)
    (centroid_accumulator : Vec3) (second_moment_of_area_accumulator : Vec2)
    (area : ℚ) : ℚ :=
  let centroid : Vec3 := ⟨centroid_accumulator.x / area, centroid_accumulator.y / area,
    centroid_accumulator.z / area⟩
  let variance0 : Vec2 := ⟨second_moment_of_area_accumulator.x / area - centroid.x * centroid.x,
    second_moment_of_area_accumulator.y / area - centroid.y * centroid.y⟩
  let variance := variance0.cwiseProduct line_dir.cwiseAbs
  let extreme_fiber_dist := norm2 env ⟨env.sqrt variance.x, env.sqrt variance.y⟩
  if extreme_fiber_dist < EPSILON then 0
  else area * (variance.x + variance.y) / extreme_fiber_dist

/-- Distance from point `p` to the line through `a` towards `b`.
Modelled from the spec: `line_alg::distance_to(Linef3(...))` is not among
the provided sources; §4.6 describes the conflict arm as the distance of
the centroid from "the line through the endpoint in push direction". -/
def distance_to_line (env : MathEnv) (a b p : Vec3) : ℚ :=
  let v := b - a
  let w := p - a
  env.sqrt (w.sqNorm - Vec3.dot w v * Vec3.dot w v / v.sqNorm)

/-- The extruder pressure direction (source lines 659-661): the line
direction tilted down by half the malformation, normalized. -/
def extruderPressureDir (env : MathEnv) (line : ExtrusionLine) : Vec3 :=
  normalized3 env ⟨(normalized2 env (line.b - line.a)).x,
    (normalized2 env (line.b - line.a)).y, -line.malformation * (1/2)⟩

/-- The extruder conflict force (source lines 663-664). -/
def conflictForce (line : ExtrusionLine) (params : Params) : ℚ :=
  params.standard_extruder_conflict_force +
    min line.malformation 1 * params.malformations_additive_conflict_extruder_force

/-- The bed-anchor centroid `sticking_centroid_accumulator / sticking_area`. -/
def bedCentroid (part : ObjectPart) : Vec3 :=
  ⟨part.sticking_centroid_accumulator.x / part.sticking_area,
    part.sticking_centroid_accumulator.y / part.sticking_area,
    part.sticking_centroid_accumulator.z / part.sticking_area⟩

/-- The mass centroid `volume_centroid_accumulator / volume`. -/
def massCentroid (part : ObjectPart) : Vec3 :=
  ⟨part.volume_centroid_accumulator.x / part.volume,
    part.volume_centroid_accumulator.y / part.volume,
    part.volume_centroid_accumulator.z / part.volume⟩

/-- The weak-connection centroid `centroid_accumulator / area`. -/
def connCentroid (conn : IslandConnection) : Vec3 :=
  ⟨conn.centroid_accumulator.x / conn.area, conn.centroid_accumulator.y / conn.area,
    conn.centroid_accumulator.z / conn.area⟩

/-- `bed_conflict_torque_arm` (source lines 682-684). -/
def bedConflictArm (env : MathEnv) (part : ObjectPart) (line : ExtrusionLine)
    (layer_z : ℚ) : ℚ :=
  let endpoint : Vec3 := ⟨line.b.x, line.b.y, layer_z⟩
  distance_to_line env endpoint (endpoint + extruderPressureDir env line) (bedCentroid part)

/-- `bed_total_torque` (source lines 666-688): movement plus conflict plus
weight torque minus the bed yield torque. -/
def bedTotalTorque (env : MathEnv) (part : ObjectPart) (line : ExtrusionLine)
    (layer_z : ℚ) (params : Params) : ℚ :=
  let mass := part.volume * params.filament_density
  let weight := mass * params.gravity_constant
  let movement_force := params.max_acceleration * mass
  let bed_yield_torque := compute_elastic_section_modulus env
      (normalized2 env (line.b - line.a)) part.sticking_centroid_accumulator
      part.sticking_second_moment_of_area_accumulator part.sticking_area *
    params.bed_adhesion_yield_strength
  let bed_weight_arm := norm2 env ((bedCentroid part).head2 - (massCentroid part).head2)
  let bed_weight_torque := bed_weight_arm * weight
  let bed_movement_arm := max 0 ((massCentroid part).z - (bedCentroid part).z)
  let bed_movement_torque := movement_force * bed_movement_arm
  let bed_extruder_conflict_torque :=
    conflictForce line params * bedConflictArm env part line layer_z
  bed_movement_torque + bed_extruder_conflict_torque + bed_weight_torque - bed_yield_torque

/-- `conn_conflict_torque_arm` (source lines 729-731). -/
def connConflictArm (env : MathEnv) (conn : IslandConnection) (line : ExtrusionLine)
    (layer_z : ℚ) : ℚ :=
  let endpoint : Vec3 := ⟨line.b.x, line.b.y, layer_z⟩
  distance_to_line env endpoint (endpoint + extruderPressureDir env line) (connCentroid conn)

/-- `conn_total_torque` (source lines 714-735): as the bed case but against
the weakest connection, with the weight torque scaled by
`conn_centroid.z / layer_z`. -/
def connTotalTorque (env : MathEnv) (part : ObjectPart) (conn : IslandConnection)
    (line : ExtrusionLine) (layer_z : ℚ) (params : Params) : ℚ :=
  let mass := part.volume * params.filament_density
  let weight := mass * params.gravity_constant
  let movement_force := params.max_acceleration * mass
  let conn_yield_torque := compute_elastic_section_modulus env
      (normalized2 env (line.b - line.a)) conn.centroid_accumulator
      conn.second_moment_of_area_accumulator conn.area * params.material_yield_strength
  let conn_weight_arm := norm2 env ((connCentroid conn).head2 - (massCentroid part).head2)
  let conn_weight_torque := conn_weight_arm * weight * ((connCentroid conn).z / layer_z)
  let conn_movement_arm := max 0 ((massCentroid part).z - (connCentroid conn).z)
  let conn_movement_torque := movement_force * conn_movement_arm
  let conn_extruder_conflict_torque :=
    conflictForce line params * connConflictArm env conn line layer_z
  conn_movement_torque + conn_extruder_conflict_torque + conn_weight_torque - conn_yield_torque

/-- `ObjectPart::is_stable_while_extruding` (source lines 631-760): the
epsilon guards and the two torque balances, returning the normalized excess
torque of the branch that fires. -/
def ObjectPart.is_stable_while_extruding (env : MathEnv) (part : ObjectPart)
    (connection : IslandConnection) (extruded_line : ExtrusionLine) (layer_z : ℚ)
    (params : Params) : ℚ :=
  if part.sticking_area < EPSILON then 1
  else if bedTotalTorque env part extruded_line layer_z params > 0 then
    bedTotalTorque env part extruded_line layer_z params /
      bedConflictArm env part extruded_line layer_z
  else if connection.area < EPSILON then 1
  else
    connTotalTorque env part connection extruded_line layer_z params /
      connConflictArm env connection extruded_line layer_z

/-- `ActiveObjectParts` (source lines 781-818): the union-find over active
object parts.  `parts` models `active_object_parts` (representative id to
payload; `none` = no entry) and `idmap` models
`active_object_parts_id_mapping` as a total function (ids that were never
inserted map to themselves; `.at` on them would throw in the source). -/
structure ActiveObjectParts where
  next_part_idx : ℕ := 0
  parts : ℕ → Option ObjectPart := fun _ => none
  idmap : ℕ → ℕ := id

/-- The root search of `get_flat_id` (source lines 788-791):
follow `idmap` until a fixpoint, with explicit fuel (the source's `while`
loop; under the union-find invariant `next_part_idx` steps suffice). -/
def rootFrom (m : ℕ → ℕ) : ℕ → ℕ → ℕ
  | 0, i => i
  | f + 1, i => if m i = i then i else rootFrom m f (m i)

/-- The path-compression loop of `get_flat_id` (source lines 792-797):
every node on the way from `id` to the root is redirected to the root. -/
def compressTo (m : ℕ → ℕ) (r : ℕ) : ℕ → ℕ → (ℕ → ℕ)
  | 0, _ => m
  | f + 1, i => if m i = r then m else compressTo (Function.update m i r) r f (m i)

/-- `ActiveObjectParts::get_flat_id` (source lines 787-799): the flat id and
the path-compressed state. -/
def ActiveObjectParts.get_flat_id (st : ActiveObjectParts) (id : ℕ) :
    ℕ × ActiveObjectParts :=
  let index := rootFrom st.idmap st.next_part_idx (st.idmap id)
  (index, { st with idmap := compressTo st.idmap index st.next_part_idx id })

/-- `ActiveObjectParts::access` (source lines 801-803): `find` then lookup;
`none` models the `.at` throw on a dangling representative. -/
def ActiveObjectParts.access (st : ActiveObjectParts) (id : ℕ) :
    Option (ObjectPart × ℕ × ActiveObjectParts) :=
  let fid := st.get_flat_id id
  (fid.2.parts fid.1).map fun p => (p, fid.1, fid.2)

/-- `ActiveObjectParts::insert` (source lines 805-809). -/
def ActiveObjectParts.insert (st : ActiveObjectParts) (island : Island) :
    ℕ × ActiveObjectParts :=
  (st.next_part_idx,
    { next_part_idx := st.next_part_idx + 1
      parts := Function.update st.parts st.next_part_idx
        (some (ObjectPart.ofIsland island))
      idmap := Function.update st.idmap st.next_part_idx st.next_part_idx })

/-- `ActiveObjectParts::merge` (source lines 811-817): add the loser into
the winner's representative, erase the loser's representative, and redirect
`from`.  `none` models the `.at` throw when a representative has no entry. -/
def ActiveObjectParts.merge (st : ActiveObjectParts) (fro toid : ℕ) :
    Option ActiveObjectParts :=
  let fid1 := st.get_flat_id toid
  let to_flat := fid1.1
  let fid2 := fid1.2.get_flat_id fro
  let from_flat := fid2.1
  let st2 := fid2.2
  match st2.parts to_flat, st2.parts from_flat with
  | some pt, some pf =>
    some { st2 with
      parts := Function.update (Function.update st2.parts to_flat (some (pt.add pf)))
        from_flat none
      idmap := Function.update st2.idmap fro to_flat }
  | _, _ => none

/-- The empty part tracker. -/
def initialParts : ActiveObjectParts := {}

/-- An `insert` or `merge` call on the part tracker (claim C9 quantifies
over sequences of these). -/
inductive UFOp where
  | ins (island : Island)
  | mrg (fro toid : ℕ)

/-- Apply a sequence of operations to the part tracker; `none` when a merge
hits a dangling representative (an `.at` throw in the source). -/
def applyOps (st : ActiveObjectParts) : List UFOp → Option ActiveObjectParts
  | [] => some st
  | UFOp.ins isl :: rest => applyOps (st.insert isl).2 rest
  | UFOp.mrg a b :: rest => (st.merge a b).bind fun st' => applyOps st' rest

/-- The operation sequence of the C9 counterexample: three fresh parts, then
`merge(0,1)` followed by `merge(0,2)` — the second merge passes a `from` id
that is no longer a representative. -/
def ufOpsCE : List UFOp :=
  [UFOp.ins {}, UFOp.ins {}, UFOp.ins {}, UFOp.mrg 0 1, UFOp.mrg 0 2]

/-- The state after the C9 counterexample sequence. -/
def ufStateCE : ActiveObjectParts := (applyOps initialParts ufOpsCE).getD initialParts

/-- A node is a root of the id mapping. -/
def isRoot (m : ℕ → ℕ) (x : ℕ) : Prop := m x = x

/-- Some iterate of the mapping from `x` is a fixpoint. -/
def reachesRoot (m : ℕ → ℕ) (x : ℕ) : Prop := ∃ k, isRoot m (m^[k] x)

/-- The union-find invariant of the part tracker: ids at or above
`next_part_idx` are untouched and have no payload; the mapping is closed
below `next_part_idx`; every chain reaches a fixpoint; and the payload
entries are exactly the live representatives. -/
def UFInv (st : ActiveObjectParts) : Prop :=
  (∀ x, st.next_part_idx ≤ x → st.idmap x = x ∧ st.parts x = none) ∧
  (∀ x, x < st.next_part_idx → st.idmap x < st.next_part_idx) ∧
  (∀ x, x < st.next_part_idx → reachesRoot st.idmap x) ∧
  (∀ x, (st.parts x).isSome ↔ (x < st.next_part_idx ∧ isRoot st.idmap x))

/-- The part-tracker states reachable by the analyzer: `insert` freely,
`get_flat_id` (hence `access`) freely, and `merge` only with a `from` that
is currently a representative distinct from `to`'s representative — exactly
the call discipline of `check_global_stability` (source lines 852-867). -/
inductive ReachableUF : ActiveObjectParts → Prop where
  | init : ReachableUF initialParts
  | ins (st : ActiveObjectParts) (isl : Island) :
      ReachableUF st → ReachableUF (st.insert isl).2
  | fnd (st : ActiveObjectParts) (id : ℕ) :
      ReachableUF st → ReachableUF (st.get_flat_id id).2
  | mrg (st : ActiveObjectParts) (fro toid : ℕ) (st' : ActiveObjectParts) :
      ReachableUF st →
      st.idmap fro = fro →
      fro < st.next_part_idx →
      (st.get_flat_id toid).1 ≠ fro →
      st.merge fro toid = some st' →
      ReachableUF st'

instance (m : ℕ → ℕ) (x : ℕ) : Decidable (isRoot m x) :=
  inferInstanceAs (Decidable (m x = x))

/-- `PixelGrid` (source lines 111-194): square pixels, an origin, an integer
extent and the cells.  The flat `std::vector` of island ids is modelled as a
total function from integer pixel coordinates; `none` is `NULL_ISLAND`.
Coordinates outside `pixel_count` are a programmer error in the source (the
grid is sized to the object's bounding box, asserts in `to_pixel_index`);
the function model keeps such writes total. -/
structure PixelGrid where
  pixel_size : ℚ
  origin : Vec2
  pixel_count : ℤ × ℤ
  cells : ℤ × ℤ → Option ℕ

/-- The `PixelGrid(po, resolution)` constructor (source lines 120-133). -/
def mkPixelGrid (po : PrintObject) (resolution : ℚ) : PixelGrid :=
  let size_half : ℤ × ℤ := (po.size.1 / 2 + 1, po.size.2 / 2 + 1)
  let pmin : Vec2 := unscaledPt (-size_half.1, -size_half.2)
  let pmax : Vec2 := unscaledPt (size_half.1, size_half.2)
  let gsize : Vec2 := pmax - pmin
  { pixel_size := resolution
    origin := pmin
    pixel_count := (qtrunc (gsize.x / resolution) + 1, qtrunc (gsize.y / resolution) + 1)
    cells := fun _ => none }

/-- `PixelGrid::to_pixel_coords` (source lines 177-180). -/
def toPixelCoords (g : PixelGrid) (p : Vec2) : ℤ × ℤ :=
  (qtrunc ((p.x - g.origin.x) / g.pixel_size), qtrunc ((p.y - g.origin.y) / g.pixel_size))

/-- `PixelGrid::get_pixel` (source lines 163-165). -/
def PixelGrid.get_pixel (g : PixelGrid) (c : ℤ × ℤ) : Option ℕ := g.cells c

/-- `PixelGrid::pixel_area` (source lines 159-161). -/
def PixelGrid.pixel_area (g : PixelGrid) : ℚ := g.pixel_size * g.pixel_size

/-- `PixelGrid::get_pixel_center` (source lines 171-174). -/
def PixelGrid.get_pixel_center (g : PixelGrid) (c : ℤ × ℤ) : Vec2 :=
  ⟨g.origin.x + c.1 * g.pixel_size + g.pixel_size / 2,
    g.origin.y + c.2 * g.pixel_size + g.pixel_size / 2⟩

/-- `PixelGrid::clear` (source lines 153-157). -/
def clearGrid (g : PixelGrid) : PixelGrid := { g with cells := fun _ => none }

/-- Replace a grid's cells, keeping its geometry. -/
def setCells (g : PixelGrid) (cs : ℤ × ℤ → Option ℕ) : PixelGrid := { g with cells := cs }

/-- The sample distances of the `distribute_edge` walk (source lines
143-150): `min(length, k·step)` for `k = 1 .. ceil(length/step)`.  For a
non-positive step the source would loop forever; the model produces no
samples (the step is `pixel_size/2`, positive for every real flow width). -/
def edgeSamples (length step : ℚ) : List ℚ :=
  (List.range (⌈length / step⌉).toNat).map fun k : ℕ => min length (((k : ℚ) + 1) * step)

/-- `PixelGrid::distribute_edge` (source lines 135-151): no-op below length
`0.1`, otherwise walk the segment in steps of `pixel_size/2`, writing
`value` into each hit cell (last write wins). -/
def distribute_edge (env : MathEnv) (g : PixelGrid) (p1 p2 : Vec2) (value : Option ℕ) :
    PixelGrid :=
  let dir := p2 - p1
  let length := env.sqrt dir.sqNorm
  if length < 1/10 then g
  else
    (edgeSamples length (g.pixel_size / 2)).foldl
      (fun g2 next_len =>
        let cells2 := Function.update g2.cells
          (toPixelCoords g2 (p1 + (next_len / length) • dir)) value
        { g2 with cells := cells2 })
      g

/-- `SupportGridFilter` (source lines 196-249): the sparse voxel set used to
deduplicate support placements. -/
structure SupportGridFilter where
  cell_size : ℚ
  origin : Vec3
  cell_count : ℤ × ℤ × ℤ
  taken_cells : List ℤ

/-- The `SupportGridFilter(po, voxel_size)` constructor (source 206-216). -/
def mkSupportGridFilter (po : PrintObject) (voxel_size : ℚ) : SupportGridFilter :=
  let size_half : ℤ × ℤ := (po.size.1 / 2 + 1, po.size.2 / 2 + 1)
  let vmin : Vec3 := ⟨(-size_half.1 : ℤ) * SCALING_FACTOR - voxel_size,
    (-size_half.2 : ℤ) * SCALING_FACTOR - voxel_size, 0 - voxel_size⟩
  let vmax : Vec3 := ⟨(size_half.1 : ℤ) * SCALING_FACTOR + voxel_size,
    (size_half.2 : ℤ) * SCALING_FACTOR + voxel_size, (po.height : ℚ) * SCALING_FACTOR + voxel_size⟩
  let vsize := vmax - vmin
  { cell_size := voxel_size
    origin := vmin
    cell_count := (qtrunc (vsize.x / voxel_size) + 1, qtrunc (vsize.y / voxel_size) + 1,
      qtrunc (vsize.z / voxel_size) + 1)
    taken_cells := [] }

/-- `SupportGridFilter::to_cell_coords` (source 218-221). -/
def toCellCoords (f : SupportGridFilter) (p : Vec3) : ℤ × ℤ × ℤ :=
  (qtrunc ((p.x - f.origin.x) / f.cell_size), qtrunc ((p.y - f.origin.y) / f.cell_size),
    qtrunc ((p.z - f.origin.z) / f.cell_size))

/-- `SupportGridFilter::to_cell_index` (source 223-234). -/
def toCellIndex (f : SupportGridFilter) (c : ℤ × ℤ × ℤ) : ℤ :=
  c.2.2 * f.cell_count.1 * f.cell_count.2.1 + c.2.1 * f.cell_count.1 + c.1

/-- `SupportGridFilter::position_taken` (source 245-247). -/
def SupportGridFilter.position_taken (f : SupportGridFilter) (p : Vec3) : Bool :=
  f.taken_cells.contains (toCellIndex f (toCellCoords f p))

/-- `SupportGridFilter::take_position` (source 241-243). -/
def SupportGridFilter.take_position (f : SupportGridFilter) (p : Vec3) : SupportGridFilter :=
  { f with taken_cells := toCellIndex f (toCellCoords f p) :: f.taken_cells }

/-- In-place update of the `n`-th element of a list (no-op out of range). -/
def updateNth {α : Type} (l : List α) (n : ℕ) (f : α → α) : List α :=
  match l, n with
  | [], _ => []
  | a :: as, 0 => f a :: as
  | a :: as, n + 1 => a :: updateNth as n f

/-- Group the layer lines into extrusions — maximal consecutive runs with
the same `origin_entity` — as `[start, end)` index ranges (source lines
431-443). -/
def groupExtrusions (lines : List ExtrusionLine) : List (ℕ × ℕ) :=
  let step := fun (acc : List (ℕ × ℕ) × Option ℕ) (i : ℕ) =>
    match lines.get? i with
    | none => acc
    | some l =>
      match acc.2 with
      | some cur =>
        if l.origin = cur then
          match acc.1 with
          | (s, _) :: rest => ((s, i + 1) :: rest, some cur)
          | [] => ([(i, i + 1)], some l.origin)
        else ((i, i + 1) :: acc.1, some l.origin)
      | none => ((i, i + 1) :: acc.1, some l.origin)
  ((List.range lines.length).foldl step ([], none)).1.reverse

/-- The sub-list of lines of one extrusion range. -/
def sliceRange (lines : List ExtrusionLine) (se : ℕ × ℕ) : List ExtrusionLine :=
  (lines.drop se.1).take (se.2 - se.1)

/-- Seed island candidates from external perimeters, with the first-extrusion
fallback (source lines 445-469).  Returns the candidate line sets (the
`LinesDistancer`s) and the per-candidate extrusion lists. -/
def islandCandidates (layer_lines : List ExtrusionLine) (extrusions : List (ℕ × ℕ)) :
    List (List ExtrusionLine) × List (List ℕ) :=
  let seeded := (List.range extrusions.length).foldl
    (fun (acc : List (List ExtrusionLine) × List (List ℕ)) e =>
      match extrusions.get? e with
      | none => acc
      | some se =>
        match layer_lines.get? se.1 with
        | none => acc
        | some l0 =>
          if l0.is_external_perimeter then
            (acc.1 ++ [sliceRange layer_lines se], acc.2 ++ [[e]])
          else acc)
    ([], [])
  if seeded.1.isEmpty then
    match extrusions.head? with
    | some se => ([sliceRange layer_lines se], [[0]])
    | none => ([], [])
  else seeded

/-- Assign each non-external extrusion to the first candidate island whose
signed distance to the extrusion's first point is negative, defaulting to
island 0 (source lines 471-489). -/
def assignExtrusions (env : MathEnv) (layer_lines : List ExtrusionLine)
    (extrusions : List (ℕ × ℕ)) (islands : List (List ExtrusionLine))
    (island_ext : List (List ℕ)) : List (List ℕ) :=
  (List.range extrusions.length).foldl
    (fun ext e =>
      match extrusions.get? e with
      | none => ext
      | some se =>
        match layer_lines.get? se.1 with
        | none => ext
        | some l0 =>
          if l0.is_external_perimeter then ext
          else
            match (List.range islands.length).find? (fun i =>
              match signed_distance_from_lines env (islands.getD i []) l0.a with
              | some r => decide (r.1 < 0)
              | none => false) with
            | some i => updateNth ext i (fun lst => lst ++ [e])
            | none => updateNth ext 0 (fun lst => lst ++ [e]))
    island_ext

/-- Merge islands embedded within each other (source lines 490-507): island
`i` absorbs island `j`'s extrusions when `j`'s first line starts strictly
inside `i`. -/
def mergeNestedIslands (env : MathEnv) (islands : List (List ExtrusionLine))
    (island_ext : List (List ℕ)) : List (List ℕ) :=
  (List.range islands.length).foldl
    (fun ext i =>
      if (islands.getD i []).isEmpty then ext
      else
        (List.range islands.length).foldl
          (fun ext2 j =>
            if (islands.getD j []).isEmpty || i == j then ext2
            else
              match (islands.getD j []).head? with
              | none => ext2
              | some l0 =>
                match signed_distance_from_lines env (islands.getD i []) l0.a with
                | some r =>
                  if r.1 < 0 then
                    updateNth (updateNth ext2 i (fun lst => lst ++ ext2.getD j [])) j
                      (fun _ => [])
                  else ext2
                | none => ext2)
          ext)
    island_ext

/-- Accumulate one line into an island (source lines 523-544): volume and
volume centroid always; bed sticking moments on the first layer (about the
segment middle) or for segments that received a local support point (about
the endpoint `b`). -/
def accumLine (isl : Island) (l : ExtrusionLine) (slice_z fw : ℚ) (first_layer : Bool) :
    Island :=
  let volume := l.originMm3 * l.len
  let mid : Vec2 := (1/2 : ℚ) • (l.a + l.b)
  let isl1 := { isl with
    volume := isl.volume + volume
    volume_centroid_accumulator := isl.volume_centroid_accumulator +
      volume • to3d mid slice_z }
  if first_layer then
    let sticking_area := l.len * fw
    { isl1 with
      sticking_area := isl1.sticking_area + sticking_area
      sticking_centroid_accumulator := isl1.sticking_centroid_accumulator +
        sticking_area • to3d mid slice_z
      sticking_second_moment_of_area_accumulator :=
        isl1.sticking_second_moment_of_area_accumulator +
          sticking_area • mid.cwiseProduct mid }
  else if l.support_point_generated then
    let sticking_area := l.len * fw
    { isl1 with
      sticking_area := isl1.sticking_area + sticking_area
      sticking_centroid_accumulator := isl1.sticking_centroid_accumulator +
        sticking_area • to3d l.b slice_z
      sticking_second_moment_of_area_accumulator :=
        isl1.sticking_second_moment_of_area_accumulator +
          sticking_area • l.b.cwiseProduct l.b }
  else isl1

/-- Build one island from its extrusions (source lines 519-546): external
lines come from the island's first member extrusion. -/
def islandOfExtrusions (layer_lines : List ExtrusionLine) (extrusions : List (ℕ × ℕ))
    (island_ex : List ℕ) (slice_z fw : ℚ) (first_layer : Bool) : Island :=
  let base : Island :=
    { external_lines := sliceRange layer_lines (extrusions.getD (island_ex.headD 0) (0, 0)) }
  island_ex.foldl
    (fun isl exIdx =>
      (sliceRange layer_lines (extrusions.getD exIdx (0, 0))).foldl
        (fun isl2 l => accumLine isl2 l slice_z fw first_layer) isl)
    base

/-- The islands of the layer: one per surviving (nonempty) candidate, in
order (source lines 514-547). -/
def builtIslands (layer_lines : List ExtrusionLine) (extrusions : List (ℕ × ℕ))
    (island_ext : List (List ℕ)) (slice_z fw : ℚ) (first_layer : Bool) : List Island :=
  island_ext.foldl
    (fun lst island_ex =>
      if island_ex.isEmpty then lst
      else lst ++ [islandOfExtrusions layer_lines extrusions island_ex slice_z fw first_layer])
    []

/-- `line_to_island_mapping` (source lines 513, 525): line index to island
index, `none` = `NULL_ISLAND`. -/
def lineIslandMap (extrusions : List (ℕ × ℕ)) (island_ext : List (List ℕ)) :
    ℕ → Option ℕ :=
  (island_ext.foldl
    (fun (acc : (ℕ → Option ℕ) × ℕ) island_ex =>
      if island_ex.isEmpty then acc
      else
        (island_ex.foldl
          (fun mp exIdx =>
            let se := extrusions.getD exIdx (0, 0)
            (List.range' se.1 (se.2 - se.1)).foldl
              (fun mp2 lidx => Function.update mp2 lidx (some acc.2)) mp)
          acc.1, acc.2 + 1))
    (fun _ => none, 0)).1

/-- Rasterize the layer's lines into the cleared grid (source lines
550-561); the `tbb::parallel_for` is modelled sequentially in index order. -/
def rasterizeLayer (env : MathEnv) (grid0 : PixelGrid) (layer_lines : List ExtrusionLine)
    (mapping : ℕ → Option ℕ) : PixelGrid :=
  (List.range layer_lines.length).foldl
    (fun g i =>
      match layer_lines.get? i with
      | none => g
      | some l => distribute_edge env g l.a l.b (mapping i))
    grid0

/-- All in-range pixel coordinates, x-major (source lines 564-565). -/
def allCoords (cnt : ℤ × ℤ) : List (ℤ × ℤ) :=
  ((List.range cnt.1.toNat).map fun x =>
    (List.range cnt.2.toNat).map fun y => ((x : ℤ), (y : ℤ))).flatten

/-- Add an overlap contribution into an association list keyed by
previous-layer island id (`unordered_map::operator[]` plus `+=`). -/
def connAdd (m : List (ℕ × IslandConnection)) (key : ℕ) (c : IslandConnection) :
    List (ℕ × IslandConnection) :=
  match m with
  | [] => [(key, c)]
  | (k, v) :: rest => if k = key then (k, v.add c) :: rest else (k, v) :: connAdd rest key c

/-- One cell of the overlap sweep (source lines 566-577). -/
def overlapStep (pixArea : ℚ) (z : ℚ) (cur prev : Option ℕ) (center : Vec2)
    (islands : List Island) : List Island :=
  match cur, prev with
  | some ci, some pi2 =>
    updateNth islands ci (fun isl =>
      let conns := connAdd isl.connected_islands pi2
        ⟨pixArea, pixArea • to3d center z, pixArea • center.cwiseProduct center⟩
      { isl with connected_islands := conns })
  | _, _ => islands

/-- The overlap sweep over the whole grid (source lines 563-579). -/
def overlapSweep (curGrid prevGrid : PixelGrid) (z : ℚ) (islands : List Island) :
    List Island :=
  (allCoords curGrid.pixel_count).foldl
    (fun isl c =>
      overlapStep curGrid.pixel_area z (curGrid.get_pixel c) (prevGrid.get_pixel c)
        (curGrid.get_pixel_center c) isl)
    islands

/-- The island-partition stage of `reckon_islands` (source lines 431-507):
the extrusion ranges and the final assignment of extrusions to islands. -/
def reckonExt (env : MathEnv) (layer_lines : List ExtrusionLine) :
    List (ℕ × ℕ) × List (List ℕ) :=
  let extrusions := groupExtrusions layer_lines
  let cands := islandCandidates layer_lines extrusions
  (extrusions,
    mergeNestedIslands env cands.1
      (assignExtrusions env layer_lines extrusions cands.1 cands.2))

/-- The `line_to_island_mapping` computed by `reckon_islands`. -/
def reckonMapping (env : MathEnv) (layer_lines : List ExtrusionLine) : ℕ → Option ℕ :=
  lineIslandMap (reckonExt env layer_lines).1 (reckonExt env layer_lines).2

/-- The body of `reckon_islands` (source lines 424-582) once the layer's
`slice_z` and external-perimeter flow width are in hand. -/
def reckonIslandsCore (env : MathEnv) (slice_z flow_width : ℚ) (first_layer : Bool)
    (prev_layer_grid : PixelGrid) (layer_lines : List ExtrusionLine) (_params : Params) :
    LayerIslands × PixelGrid :=
  let er := reckonExt env layer_lines
  let islands := builtIslands layer_lines er.1 er.2 slice_z flow_width first_layer
  let grid1 := rasterizeLayer env (clearGrid prev_layer_grid) layer_lines
    (reckonMapping env layer_lines)
  let islands2 := overlapSweep grid1 prev_layer_grid slice_z islands
  (⟨islands2, slice_z⟩, grid1)

/-- `reckon_islands` (source lines 424-582): fails (`none`) when the layer
has no region (`layer->regions()[0]` is out of bounds, source line 509). -/
def reckon_islands (env : MathEnv) (layer : Layer) (first_layer : Bool)
    (prev_layer_grid : PixelGrid) (layer_lines : List ExtrusionLine) (params : Params) :
    Option (LayerIslands × PixelGrid) :=
  layer.regions.head?.map fun r0 =>
    reckonIslandsCore env layer.slice_z (get_flow_width r0 Role.externalPerimeter)
      first_layer prev_layer_grid layer_lines params

/-- The `estimate_strength` lambda of `check_global_stability` (source
lines 869-875). -/
def estimate_strength (layer_z : ℚ) (conn : IslandConnection) : ℚ :=
  let centroid := connCentroid conn
  let min_variance := min
    (conn.second_moment_of_area_accumulator.x / conn.area - centroid.x * centroid.x)
    (conn.second_moment_of_area_accumulator.y / conn.area - centroid.y * centroid.y)
  let arm_len_estimate := max (11/10) (layer_z - conn.centroid_accumulator.z / conn.area)
  min_variance / arm_len_estimate

/-- One connection of the merge block (source lines 853-859): resolve the
previous island's part to its representative, collect it (deduplicated, in
first-seen order, modelling the `unordered_set`), and accumulate the
transferred and new weakest connections.  `none` models the `.at` throw on
a previous island missing from the maps. -/
def collectStep (prevMap : List (ℕ × ℕ)) (prevWeak : List (ℕ × IslandConnection))
    (acc : ActiveObjectParts × List ℕ × IslandConnection × IslandConnection)
    (conn : ℕ × IslandConnection) :
    Option (ActiveObjectParts × List ℕ × IslandConnection × IslandConnection) :=
  match List.lookup conn.1 prevMap with
  | none => none
  | some mapped =>
    match List.lookup conn.1 prevWeak with
    | none => none
    | some pw =>
      let fid := acc.1.get_flat_id mapped
      some (fid.2,
        if acc.2.1.contains fid.1 then acc.2.1 else acc.2.1 ++ [fid.1],
        (acc.2.2.1.add pw, acc.2.2.2.add conn.2))

/-- The merge loop (source lines 861-867): merge every other collected part
into the final one. -/
def mergeAll (fid : ℕ) : List ℕ → ActiveObjectParts → Option ActiveObjectParts
  | [], st => some st
  | pid :: rest, st =>
    if fid ≠ pid then (st.merge pid fid).bind (mergeAll fid rest)
    else mergeAll fid rest st

/-- The else-branch of the first island loop (source lines 846-887): merge
the connected parts, pick the weaker of the transferred and new weakest
connections, and add the island into the final part. -/
def processConnectedIsland (layer_z : ℚ)
    (prevMap : List (ℕ × ℕ)) (prevWeak : List (ℕ × IslandConnection))
    (island_idx : ℕ) (island : Island) (st : ActiveObjectParts)
    (nextMap : List (ℕ × ℕ)) (nextWeak : List (ℕ × IslandConnection)) :
    Option (ActiveObjectParts × List (ℕ × ℕ) × List (ℕ × IslandConnection)) := do
  let collected ← island.connected_islands.foldlM (collectStep prevMap prevWeak)
    (st, [], ({} : IslandConnection), ({} : IslandConnection))
  match collected.2.1.head? with
  | none => none
  | some fid => do
    let st2 ← mergeAll fid collected.2.1 collected.1
    let transfered := collected.2.2.1
    let neww := collected.2.2.2
    let chosen := if estimate_strength layer_z transfered < estimate_strength layer_z neww
      then transfered else neww
    let fl := st2.get_flat_id fid
    match fl.2.parts fl.1 with
    | none => none
    | some p =>
      let parts2 := Function.update fl.2.parts fl.1 (some (p.add (ObjectPart.ofIsland island)))
      some ({ fl.2 with parts := parts2 },
        nextMap ++ [(island_idx, fid)], nextWeak ++ [(island_idx, chosen)])

/-- One island of the first loop (source lines 839-888).  The float
`INFINITY` seeding a fresh island's weakest connection is not a rational;
it is abstracted as the oracle parameter `infty` (like the square root). -/
def islandStep (infty layer_z : ℚ)
    (prevMap : List (ℕ × ℕ)) (prevWeak : List (ℕ × IslandConnection))
    (acc : ActiveObjectParts × List (ℕ × ℕ) × List (ℕ × IslandConnection))
    (island_idx : ℕ) (island : Island) :
    Option (ActiveObjectParts × List (ℕ × ℕ) × List (ℕ × IslandConnection)) :=
  if island.connected_islands.isEmpty then
    let ins := acc.1.insert island
    some (ins.2, acc.2.1 ++ [(island_idx, ins.1)],
      acc.2.2 ++ [(island_idx, ⟨1, ⟨0, 0, 0⟩, ⟨infty, infty⟩⟩)])
  else
    processConnectedIsland layer_z prevMap prevWeak island_idx island acc.1 acc.2.1 acc.2.2

/-- Whether a line of the stability loop is diverted into the
distance-accumulation branch (source lines 910-911): close to the previous
support and well-formed, or of zero length. -/
def shouldAccumulate (params : Params) (unchecked_dist : ℚ) (line : ExtrusionLine) : Bool :=
  decide ((unchecked_dist + line.len < params.min_distance_between_support_points ∧
    line.malformation < 3/10) ∨ line.len = 0)

/-- State of the per-line stability loop (source lines 905-942). -/
structure GlobalLineState where
  unchecked_dist : ℚ
  part : ObjectPart
  weakest : IslandConnection
  issues : List SupportPoint
  sgrid : SupportGridFilter

/-- One external line of the stability loop (source lines 909-942):
accumulate distance, or run the stability test and possibly emit a support
point.  `none` models the read of the uninitialized `target_point` when the
island has no external lines (the pivot query finds nothing). -/
def globalLineStep (env : MathEnv) (params : Params) (layer_z : ℚ)
    (external_lines : List ExtrusionLine) (st : GlobalLineState) (line : ExtrusionLine) :
    Option GlobalLineState :=
  if shouldAccumulate params st.unchecked_dist line then
    some { st with unchecked_dist := st.unchecked_dist + line.len }
  else
    let st1 := { st with unchecked_dist := line.len }
    let force := st.part.is_stable_while_extruding env st.weakest line layer_z params
    if force > 0 then
      let search2 := line.b + (300 : ℚ) • normalized2 env (line.b - line.a)
      match signed_distance_from_lines env external_lines search2 with
      | none => none
      | some r =>
        let support_point := to3d r.2.2 layer_z
        if st.sgrid.position_taken support_point then some st1
        else
          let area := params.support_points_interface_radius *
            params.support_points_interface_radius * PI
          some { unchecked_dist := line.len
                 part := st.part.add_support_point support_point area
                 weakest := ⟨st.weakest.area + area,
                   st.weakest.centroid_accumulator + area • support_point,
                   st.weakest.second_moment_of_area_accumulator +
                     area • support_point.head2.cwiseProduct support_point.head2⟩
                 issues := st.issues ++ [⟨support_point, force,
                   to3d (normalized2 env (line.b - line.a)) 0⟩]
                 sgrid := st.sgrid.take_position support_point }
    else some st1

/-- The second island loop of a layer (source lines 899-943): run the
stability test over the island's external lines, writing the mutated part
back into the tracker.  `none` models the `.at` throw of `access`. -/
def islandStability (env : MathEnv) (params : Params) (layer_z : ℚ)
    (prevMap : List (ℕ × ℕ)) (prevWeak : List (ℕ × IslandConnection))
    (acc : ActiveObjectParts × List SupportPoint × SupportGridFilter)
    (island_idx : ℕ) (island : Island) :
    Option (ActiveObjectParts × List SupportPoint × SupportGridFilter) := do
  let fl := acc.1.get_flat_id ((List.lookup island_idx prevMap).getD 0)
  match fl.2.parts fl.1 with
  | none => none
  | some part =>
    let weakest := (List.lookup island_idx prevWeak).getD {}
    let st0 : GlobalLineState :=
      ⟨params.min_distance_between_support_points + 1, part, weakest, acc.2.1, acc.2.2⟩
    let stF ← island.external_lines.foldlM
      (globalLineStep env params layer_z island.external_lines) st0
    some ({ fl.2 with parts := Function.update fl.2.parts fl.1 (some stF.part) },
      stF.issues, stF.sgrid)

/-- One layer of `check_global_stability` (source lines 831-944): the merge
loop over islands, the prev/next map swap, then the stability loop. -/
def globalLayerStep (env : MathEnv) (infty : ℚ) (params : Params)
    (acc : ActiveObjectParts × List (ℕ × ℕ) × List (ℕ × IslandConnection) ×
      List SupportPoint × SupportGridFilter)
    (li : LayerIslands) :
    Option (ActiveObjectParts × List (ℕ × ℕ) × List (ℕ × IslandConnection) ×
      List SupportPoint × SupportGridFilter) := do
  let first ← (List.range li.islands.length).foldlM
    (fun (a : ActiveObjectParts × List (ℕ × ℕ) × List (ℕ × IslandConnection)) i =>
      match li.islands.get? i with
      | none => some a
      | some island => islandStep infty li.layer_z acc.2.1 acc.2.2.1 a i island)
    (acc.1, [], [])
  let second ← (List.range li.islands.length).foldlM
    (fun (a : ActiveObjectParts × List SupportPoint × SupportGridFilter) i =>
      match li.islands.get? i with
      | none => some a
      | some island => islandStability env params li.layer_z first.2.1 first.2.2 a i island)
    (first.1, acc.2.2.2.1, acc.2.2.2.2)
  some (second.1, first.2.1, first.2.2, second.2.1, second.2.2)

/-- `check_global_stability` (source lines 820-947). -/
def check_global_stability (env : MathEnv) (infty : ℚ)
    (supports_presence_grid : SupportGridFilter) (islands_graph : List LayerIslands)
    (params : Params) : Option Issues := do
  let final ← islands_graph.foldlM (globalLayerStep env infty params)
    (initialParts, [], [], [], supports_presence_grid)
  some ⟨final.2.2.2.1⟩

/-- Member entities of a collection.  The source `static_cast`s every member
of `perimeters.entities` / `fills.entities` to `ExtrusionEntityCollection`
(lines 966, 984, 1030, 1036); a path there would be undefined behaviour, the
model gives it no members. -/
def Entity.subs : Entity → List Entity
  | .path _ _ _ _ => []
  | .coll es => es

/-- The consecutive-pair flattening of a polyline into extrusion lines
(source lines 969-974 and analogous loops). -/
def pairLines (env : MathEnv) (origin : ℕ) (role : Role) (mm3 : ℚ)
    (pts : List (ℤ × ℤ)) : List ExtrusionLine :=
  (pts.zip pts.tail).map fun pr =>
    mkLine env (unscaledPt pr.1) (unscaledPt pr.2) origin role mm3

/-- Flatten one base-layer entity (source lines 966-980 / 984-992): its
consecutive pairs, plus the closing line for loops; `nid` is the next fresh
entity handle.  `none` models the `points[size-1]` access of the loop close
on an empty polyline. -/
def entityBaseLines (env : MathEnv) (withLoop : Bool) (e : Entity) (nid : ℕ) :
    Option (List ExtrusionLine × ℕ) :=
  let pts := e.collect_points
  let lines := pairLines env nid e.role e.min_mm3_per_mm pts
  if withLoop && e.is_loop then
    match pts.getLast?, pts.head? with
    | some lastp, some firstp =>
      some (lines ++ [mkLine env (unscaledPt lastp) (unscaledPt firstp) nid e.role
        e.min_mm3_per_mm], nid + 1)
    | _, _ => none
  else some (lines, nid + 1)

/-- Flatten the members of one collection of base-layer entities. -/
def collectionBaseLines (env : MathEnv) (withLoop : Bool) (es : List Entity)
    (acc : List ExtrusionLine × ℕ) : Option (List ExtrusionLine × ℕ) :=
  es.foldlM (fun a e => (entityBaseLines env withLoop e a.2).map fun r => (a.1 ++ r.1, r.2)) acc

/-- The base-layer line collection (source lines 962-995): perimeters with
loop closing, then fills raw. -/
def baseLayerLines (env : MathEnv) (layer : Layer) : Option (List ExtrusionLine × ℕ) :=
  layer.regions.foldlM
    (fun a r => do
      let a1 ← r.perimeters.foldlM (fun a2 ex => collectionBaseLines env true ex.subs a2) a
      r.fills.foldlM (fun a2 ex => collectionBaseLines env false ex.subs a2) a1)
    ([], 0)

/-- The line collection of an upper layer's region (source lines 1028-1053):
perimeters through the local stability check, gap and bridge fills likewise,
other fills raw. -/
def upperRegionLines (env : MathEnv) (params : Params) (layer_z : ℚ)
    (prevLines : List ExtrusionLine) (region : Region)
    (acc : List ExtrusionLine × List SupportPoint × ℕ) :
    Option (List ExtrusionLine × List SupportPoint × ℕ) := do
  let a1 ← region.perimeters.foldlM (fun a ex =>
    ex.subs.foldlM (fun a2 per =>
      checkEntityStability env params layer_z region prevLines per a2.1 a2.2.1 a2.2.2) a) acc
  region.fills.foldlM (fun a ex =>
    ex.subs.foldlM (fun a2 fill =>
      if fill.role = Role.gapFill ∨ fill.role = Role.bridgeInfill then
        checkEntityStability env params layer_z region prevLines fill a2.1 a2.2.1 a2.2.2
      else
        some (a2.1 ++ pairLines env a2.2.2 fill.role fill.min_mm3_per_mm fill.collect_points,
          a2.2.1, a2.2.2 + 1)) a) a1

/-- One upper layer of `check_extrusions_and_build_graph` (source lines
1026-1084): collect and locally check the layer's lines, reckon its islands,
and roll the state (issues, graph, previous layer's lines and grid, next
handle) forward. -/
def upperLayerStep (env : MathEnv) (params : Params)
    (acc : List SupportPoint × List LayerIslands × List ExtrusionLine × PixelGrid × ℕ)
    (layer : Layer) :
    Option (List SupportPoint × List LayerIslands × List ExtrusionLine × PixelGrid × ℕ) := do
  let r ← layer.regions.foldlM
    (fun a reg => upperRegionLines env params layer.slice_z acc.2.2.1 reg a)
    ([], acc.1, acc.2.2.2.2)
  match reckon_islands env layer false acc.2.2.2.1 r.1 params with
  | none => none
  | some lg => some (r.2.1, acc.2.1 ++ [lg.1], r.1, lg.2, r.2.2)

/-- `check_extrusions_and_build_graph` (source lines 949-1092).  `none`
models the out-of-bounds accesses on degenerate objects: line 959 indexes
`layers()[layer_count() - 1]` (underflows for zero layers) and
`regions()[0]`, line 963 indexes `layers()[0]`. -/
def check_extrusions_and_build_graph (env : MathEnv) (po : PrintObject) (params : Params) :
    Option (Issues × List LayerIslands) := do
  let last ← po.layers.get? (po.layers.length - 1)
  let r0 ← last.regions.head?
  let grid0 := mkPixelGrid po (get_flow_width r0 Role.externalPerimeter)
  let base ← po.layers.get? 0
  let bl ← baseLayerLines env base
  let lg ← reckon_islands env base true grid0 bl.1 params
  let final ← (po.layers.drop 1).foldlM (upperLayerStep env params)
    ([], [lg.1], bl.1, lg.2, bl.2)
  some (⟨final.1⟩, final.2.1)

/-- `full_search` (source lines 1120-1132): the local pass, then the global
pass, then the global support points followed by the local ones. -/
def full_search (env : MathEnv) (infty : ℚ) (po : PrintObject) (params : Params) :
    Option Issues := do
  let lg ← check_extrusions_and_build_graph env po params
  let gi ← check_global_stability env infty
    (mkSupportGridFilter po params.min_distance_between_support_points) lg.2 params
  some ⟨gi.support_points ++ lg.1.support_points⟩

/-- Area of a possibly-absent island connection: a key missing from
`connected_islands` carries area `0` (a default-constructed
`IslandConnection`). -/
def areaOf (o : Option IslandConnection) : ℚ :=
  match o with
  | none => 0
  | some c => c.area

/-- Number of grid cells on which the current grid holds island `ci` and the
previous grid holds island `pi2` (both non-`NULL_ISLAND`). -/
def countOverlap (cur prev : PixelGrid) (ci pi2 : ℕ) : ℕ :=
  ((allCoords cur.pixel_count).filter fun c =>
    decide (cur.get_pixel c = some ci ∧ prev.get_pixel c = some pi2)).length

/-- The accumulated `connection.area` of island `ci`'s connection to
previous-layer island `pi2` (0 when the island or the key is absent). -/
def connAreaAt (islands : List Island) (ci pi2 : ℕ) : ℚ :=
  match islands.get? ci with
  | none => 0
  | some isl => areaOf (List.lookup pi2 isl.connected_islands)

/-- Region with all flow widths `1`, used by concrete layer inputs. -/
def regionC5 : Region := ⟨fun _ => 1, [], []⟩

/-- Concrete layer at `slice_z = 0` with one region. -/
def layerC5 : Layer := ⟨0, [regionC5]⟩

/-- Concrete print object: one layer, scaled bounding box `2 × 2`, height
`1`. -/
def poC5 : PrintObject := ⟨[layerC5], (2, 2), 1⟩

/-- The (empty) previous-layer grid for that object at resolution `1`. -/
def gridC5 : PixelGrid := mkPixelGrid poC5 1

/-- An external-perimeter unit segment from `(0,0)` to `(1,0)`, entity
handle `0`. -/
def lineC5A : ExtrusionLine := ⟨⟨0, 0⟩, ⟨1, 0⟩, 1, 0, Role.externalPerimeter, 1, false, 0⟩

/-- A geometrically identical external-perimeter segment from a different
entity (handle `1`), so it seeds a separate island. -/
def lineC5B : ExtrusionLine := ⟨⟨0, 0⟩, ⟨1, 0⟩, 1, 1, Role.externalPerimeter, 1, false, 0⟩

/-- The two coincident segments as one layer's lines. -/
def linesC5 : List ExtrusionLine := [lineC5A, lineC5B]

/-- Concrete square-root table used by witnesses: exact on the perfect
squares the witness inputs produce, `0` elsewhere, and nonnegative
everywhere. -/
def sqrtT (q : ℚ) : ℚ :=
  if q = 0 then 0
  else if q = 1 then 1
  else if q = 4 then 2
  else if q = 9 then 3
  else if q = 25 then 5
  else if q = 1/4 then 1/2
  else 0

/-- Concrete oracle used by witnesses. -/
def envT : MathEnv := ⟨sqrtT, fun _ _ => 0⟩

/-- Concrete parameter record used by witnesses (values from spec §8). -/
def paramsT : Params :=
  { bridge_distance := 2
    bridge_distance_decrease_by_curvature_factor := 5
    min_distance_between_support_points := 1
    support_points_interface_radius := 3/5
    filament_density := 1
    gravity_constant := 1
    max_acceleration := 1
    standard_extruder_conflict_force := 10
    malformations_additive_conflict_extruder_force := 5
    bed_adhesion_yield_strength := 1000
    material_yield_strength := 1000 }

/-- Concrete object part used by the C2 counterexample: unit volume and a
unit bed anchor around `(1,0)`, against huge yield strengths. -/
def partC2 : ObjectPart := ⟨1, ⟨1, 0, 0⟩, 1, ⟨1, 0, 0⟩, ⟨2, 1⟩⟩

/-- Concrete weakest connection used by the C2 counterexample. -/
def connC2 : IslandConnection := ⟨1, ⟨1, 0, 0⟩, ⟨2, 1⟩⟩

/-- Concrete object part with zero sticking area (C3 witness). -/
def partZero : ObjectPart := ⟨1, ⟨0, 0, 0⟩, 0, ⟨0, 0, 0⟩, ⟨0, 0⟩⟩

/-- Concrete extrusion line used by witnesses: from `(0,0)` to `(1,0)`. -/
def lineT : ExtrusionLine :=
  ⟨⟨0, 0⟩, ⟨1, 0⟩, 1, 0, Role.other, 1, false, 0⟩

/-- Concrete local-loop state used by the C1 witness: three units of
unsupported distance already accumulated. -/
def stT : LocalLineState := ⟨⟨3, 0, 0⟩, ⟨0, 0, 0⟩, [], []⟩

/-- The layer-islands record of the one-layer, no-entity object `poC5`
(used by the C7 witness). -/
def liC7 : LayerIslands := (reckonIslandsCore envT 0 1 true (mkPixelGrid poC5 1) [] paramsT).1

/-- A concrete stability-loop state (used by the C10 witness). -/
def stW : GlobalLineState := ⟨0, {}, {}, [], mkSupportGridFilter poC5 1⟩

end SupportSpots

namespace SupportSpots

@[ext]
theorem vec2_ext (a b : Vec2) (hx : a.x = b.x) (hy : a.y = b.y) : a = b := by
  cases a; cases b; simp_all

@[ext]
theorem vec3_ext (a b : Vec3) (hx : a.x = b.x) (hy : a.y = b.y) (hz : a.z = b.z) : a = b := by
  cases a; cases b; simp_all

@[simp]
theorem vec2_sub_def (a b : Vec2) : a - b = Vec2.mk (a.x - b.x) (a.y - b.y) := rfl

@[simp]
theorem vec2_add_def (a b : Vec2) : a + b = Vec2.mk (a.x + b.x) (a.y + b.y) := rfl

@[simp]
theorem vec2_smul_def (q : ℚ) (v : Vec2) : q • v = Vec2.mk (q * v.x) (q * v.y) := rfl

@[simp]
theorem Vec2.sqNorm_mk (x y : ℚ) : (Vec2.mk x y).sqNorm = x * x + y * y := rfl

@[simp]
theorem vec3_sub_def (a b : Vec3) :
    a - b = Vec3.mk (a.x - b.x) (a.y - b.y) (a.z - b.z) := rfl

@[simp]
theorem vec3_add_def (a b : Vec3) :
    a + b = Vec3.mk (a.x + b.x) (a.y + b.y) (a.z + b.z) := rfl

@[simp]
theorem vec3_smul_def (q : ℚ) (v : Vec3) :
    q • v = Vec3.mk (q * v.x) (q * v.y) (q * v.z) := rfl

theorem sqrtT_nonneg : ∀ q, 0 ≤ sqrtT q := by
  intro q
  unfold sqrtT
  repeat' split
  all_goals norm_num

/-- C1: in the local analyzer's per-segment loop, if the absolute signed
distance from the segment endpoint `b` to the previous layer is below the
flow width, the bridging accumulator is reset and nothing is emitted;
otherwise the segment length is added to the accumulated unsupported
distance, and exactly when the accumulated distance exceeds
`bridge_distance / (1 + max_curvature * k / π)` a support point at `b`
lifted to the layer `z` with force `0` and direction `(0,0,-1)` is appended,
the segment's `support_point_generated` flag is set, and the accumulator is
reset. -/
theorem c1_local_bridging_test
    (env : MathEnv) (params : Params) (flow_width layer_z : ℚ)
    (prevLines lines : List ExtrusionLine) (i : ℕ) (st : LocalLineState)
    (current : ExtrusionLine) (hc : lines.get? i = some current) :
    (absLtB (distScalar env prevLines current.b) flow_width = true →
      (checkLineStep env params flow_width layer_z prevLines lines i st).bridging_acc =
        ⟨0, 0, 0⟩ ∧
      (checkLineStep env params flow_width layer_z prevLines lines i st).issues = st.issues ∧
      ∃ l, (checkLineStep env params flow_width layer_z prevLines lines i st).out =
          st.out ++ [l] ∧
        l.support_point_generated = current.support_point_generated ∧
        l.a = current.a ∧ l.b = current.b) ∧
    (absLtB (distScalar env prevLines current.b) flow_width = false →
      (((st.bridging_acc.add_angle (nextAngle env lines i current)).add_distance
            current.len).distance >
          params.bridge_distance /
            (1 + ((st.bridging_acc.add_angle (nextAngle env lines i current)).add_distance
                current.len).max_curvature *
              params.bridge_distance_decrease_by_curvature_factor / PI) →
        (checkLineStep env params flow_width layer_z prevLines lines i st).bridging_acc =
          ⟨0, 0, 0⟩ ∧
        (checkLineStep env params flow_width layer_z prevLines lines i st).issues =
          st.issues ++ [⟨⟨current.b.x, current.b.y, layer_z⟩, 0, ⟨0, 0, -1⟩⟩] ∧
        ∃ l, (checkLineStep env params flow_width layer_z prevLines lines i st).out =
            st.out ++ [l] ∧
          l.support_point_generated = true ∧ l.a = current.a ∧ l.b = current.b) ∧
      (¬ (((st.bridging_acc.add_angle (nextAngle env lines i current)).add_distance
            current.len).distance >
          params.bridge_distance /
            (1 + ((st.bridging_acc.add_angle (nextAngle env lines i current)).add_distance
                current.len).max_curvature *
              params.bridge_distance_decrease_by_curvature_factor / PI)) →
        (checkLineStep env params flow_width layer_z prevLines lines i st).bridging_acc =
          (st.bridging_acc.add_angle (nextAngle env lines i current)).add_distance
            current.len ∧
        (checkLineStep env params flow_width layer_z prevLines lines i st).issues = st.issues ∧
        ∃ l, (checkLineStep env params flow_width layer_z prevLines lines i st).out =
            st.out ++ [l] ∧
          l.support_point_generated = current.support_point_generated ∧
          l.a = current.a ∧ l.b = current.b)) := by
  constructor
  · intro h
    simp only [checkLineStep, hc, bridgingCheck, h, if_true]
    refine ⟨by trivial, by trivial, ?_⟩
    exact ⟨_, rfl, by (repeat' split) <;> simp, by (repeat' split) <;> simp,
      by (repeat' split) <;> simp⟩
  · intro h
    constructor
    · intro ht
      simp only [checkLineStep, hc, bridgingCheck, h, Bool.false_eq_true, if_false, if_pos ht]
      refine ⟨by trivial, by trivial, ?_⟩
      exact ⟨_, rfl, by (repeat' split) <;> simp, by (repeat' split) <;> simp,
        by (repeat' split) <;> simp⟩
    · intro ht
      simp only [checkLineStep, hc, bridgingCheck, h, Bool.false_eq_true, if_false, if_neg ht]
      refine ⟨by trivial, by trivial, ?_⟩
      exact ⟨_, rfl, by (repeat' split) <;> simp, by (repeat' split) <;> simp,
        by (repeat' split) <;> simp⟩

/-- Witness for C1: with no previous-layer lines (distance `+∞`) and three
units of unsupported distance already accumulated, processing a unit segment
crosses the bridge threshold `2` and emits the downward support point. -/
theorem c1_local_bridging_test_witness :
    absLtB (distScalar envT [] lineT.b) (2/5) = false ∧
    (checkLineStep envT paramsT (2/5) (1/2) [] [lineT] 0 stT).issues =
      [⟨⟨1, 0, 1/2⟩, 0, ⟨0, 0, -1⟩⟩] ∧
    (checkLineStep envT paramsT (2/5) (1/2) [] [lineT] 0 stT).bridging_acc = ⟨0, 0, 0⟩ := by
  have h := (c1_local_bridging_test envT paramsT (2/5) (1/2) [] [lineT] 0 stT lineT rfl).2 rfl
  have hh := h.1 (by
    have hna : nextAngle envT [lineT] 0 lineT = 0 := rfl
    have hlen : lineT.len = 1 := rfl
    simp only [hna, hlen, stT, paramsT, ExtrusionPropertiesAccumulator.add_angle,
      ExtrusionPropertiesAccumulator.add_distance]
    norm_num)
  refine ⟨rfl, ?_, hh.1⟩
  have h2 := hh.2.1
  simp only [stT, lineT] at h2
  simpa using h2

/-- Helper: an index into the resampled pair forces a positive sub-segment
count, hence a positive computed length `d`. -/
theorem resample_count_pos (env : MathEnv) (params : Params) (hb : 0 < params.bridge_distance)
    (start next : Vec2)
    (hn : 0 < (⌈env.sqrt ((next - start).sqNorm) / params.bridge_distance⌉).toNat) :
    0 < env.sqrt ((next - start).sqNorm) := by
  have hc : (0 : ℤ) < ⌈env.sqrt ((next - start).sqNorm) / params.bridge_distance⌉ := by
    omega
  have hdq : 0 < env.sqrt ((next - start).sqNorm) / params.bridge_distance :=
    Int.ceil_pos.mp hc
  have h2 := mul_pos hdq hb
  rwa [div_mul_cancel₀ _ (ne_of_gt hb)] at h2

/-- Helper: every segment of a resampled pair has squared length at most
`bridge_distance²`, provided the oracle square root is exact and nonnegative
at the pair's squared length. -/
theorem resamplePair_sq_len_le (env : MathEnv) (params : Params) (origin : ℕ) (role : Role)
    (mm3 : ℚ) (hb : 0 < params.bridge_distance) (start next : Vec2)
    (hd0 : 0 ≤ env.sqrt ((next - start).sqNorm))
    (hdsq : env.sqrt ((next - start).sqNorm) * env.sqrt ((next - start).sqNorm) =
      (next - start).sqNorm) :
    ∀ l ∈ resamplePair env params origin role mm3 start next,
      (l.b - l.a).sqNorm ≤ params.bridge_distance * params.bridge_distance := by
  intro l hl
  simp only [resamplePair] at hl
  obtain ⟨i, hi, rfl⟩ := List.mem_map.mp hl
  rw [List.mem_range] at hi
  have hd : 0 < env.sqrt ((next - start).sqNorm) :=
    resample_count_pos env params hb start next (lt_of_le_of_lt (Nat.zero_le i) hi)
  set d := env.sqrt ((next - start).sqNorm) with hdd
  set n : ℤ := ⌈d / params.bridge_distance⌉ with hnn
  have hn : (0 : ℤ) < n := Int.ceil_pos.mpr (div_pos hd hb)
  have hnq : (0 : ℚ) < (n : ℚ) := by exact_mod_cast hn
  have hd' : d ≠ 0 := ne_of_gt hd
  have hn' : (n : ℚ) ≠ 0 := ne_of_gt hnq
  have hle : d ≤ (n : ℚ) * params.bridge_distance := by
    have h1 := Int.le_ceil (d / params.bridge_distance)
    calc d = d / params.bridge_distance * params.bridge_distance := by
          field_simp
      _ ≤ (n : ℚ) * params.bridge_distance :=
          mul_le_mul_of_nonneg_right h1 (le_of_lt hb)
  have hv : normalized2 env (next - start) =
      Vec2.mk ((next - start).x / d) ((next - start).y / d) := by
    simp only [normalized2, norm2, ← hdd]
  simp only [mkLine, hv]
  simp only [vec2_sub_def, vec2_add_def, vec2_smul_def, Vec2.sqNorm]
  have h9 : (next.x - start.x) * (next.x - start.x) +
      (next.y - start.y) * (next.y - start.y) = d * d := by
    have h10 := hdsq
    simp only [vec2_sub_def, Vec2.sqNorm] at h10
    linarith [h10]
  have key : ∀ s c : ℚ,
      s + ((i : ℚ) + 1) * (d / (n : ℚ)) * (c / d) - (s + (i : ℚ) * (d / (n : ℚ)) * (c / d)) =
        c / (n : ℚ) := by
    intro s c
    field_simp
    ring
  rw [key start.x (next.x - start.x), key start.y (next.y - start.y)]
  rw [div_mul_div_comm, div_mul_div_comm, div_add_div_same, h9]
  rw [div_le_iff (by positivity)]
  nlinarith [hle, hd0]

/-- C8: the local analyzer re-samples each consecutive input vertex pair of
computed length `d` into `ceil(d / bridge_distance)` equal sub-segments
(equally spaced affine subdivisions of the pair), and — when the square root
is exact at the pair's squared length — every resampled segment (including
the degenerate first segment of each path) has squared length at most
`bridge_distance²`. -/
theorem c8_resampling (env : MathEnv) (params : Params) (origin : ℕ) (role : Role)
    (mm3 : ℚ) (hb : 0 < params.bridge_distance) :
    (∀ start next : Vec2,
      (resamplePair env params origin role mm3 start next).length =
        (⌈env.sqrt ((next - start).sqNorm) / params.bridge_distance⌉).toNat ∧
      ∀ i l, (resamplePair env params origin role mm3 start next).get? i = some l →
        l.a = start +
          ((i : ℚ) / ((⌈env.sqrt ((next - start).sqNorm) / params.bridge_distance⌉).toNat : ℚ)) •
            (next - start) ∧
        l.b = start +
          (((i : ℚ) + 1) /
              ((⌈env.sqrt ((next - start).sqNorm) / params.bridge_distance⌉).toNat : ℚ)) •
            (next - start)) ∧
    (∀ start next : Vec2,
      0 ≤ env.sqrt ((next - start).sqNorm) →
      env.sqrt ((next - start).sqNorm) * env.sqrt ((next - start).sqNorm) =
        (next - start).sqNorm →
      ∀ l ∈ resamplePair env params origin role mm3 start next,
        (l.b - l.a).sqNorm ≤ params.bridge_distance * params.bridge_distance) ∧
    (∀ upts : List Vec2,
      (∀ u ∈ upts, ∀ v ∈ upts, 0 ≤ env.sqrt ((v - u).sqNorm) ∧
        env.sqrt ((v - u).sqNorm) * env.sqrt ((v - u).sqNorm) = (v - u).sqNorm) →
      ∀ l ∈ resamplePath env params origin role mm3 upts,
        (l.b - l.a).sqNorm ≤ params.bridge_distance * params.bridge_distance) := by
  refine ⟨?_, ?_, ?_⟩
  · intro start next
    constructor
    · simp [resamplePair]
    · intro i l hl
      simp only [resamplePair, List.get?_map] at hl
      have hi : i < (⌈env.sqrt ((next - start).sqNorm) / params.bridge_distance⌉).toNat := by
        by_contra hcon
        rw [List.get?_eq_none.mpr (by simpa using Nat.le_of_not_lt hcon)] at hl
        simp at hl
      rw [List.get?_range hi] at hl
      simp only [Option.map_some'] at hl
      have hd : 0 < env.sqrt ((next - start).sqNorm) :=
        resample_count_pos env params hb start next (lt_of_le_of_lt (Nat.zero_le i) hi)
      set d := env.sqrt ((next - start).sqNorm) with hdd
      set n : ℤ := ⌈d / params.bridge_distance⌉ with hnn
      have hn : (0 : ℤ) < n := Int.ceil_pos.mpr (div_pos hd hb)
      have hnq : (0 : ℚ) < (n : ℚ) := by exact_mod_cast hn
      have hd' : d ≠ 0 := ne_of_gt hd
      have hn' : (n : ℚ) ≠ 0 := ne_of_gt hnq
      have hcast : ((n.toNat : ℚ)) = (n : ℚ) := by
        exact_mod_cast congrArg (fun z : ℤ => (z : ℚ)) (Int.toNat_of_nonneg hn.le)
      have hv : normalized2 env (next - start) =
          Vec2.mk ((next - start).x / d) ((next - start).y / d) := by
        simp only [normalized2, norm2, ← hdd]
      obtain rfl := Option.some.inj hl
      constructor
      · simp only [mkLine, hv]
        ext <;> simp [hcast] <;> field_simp <;> ring
      · simp only [mkLine, hv]
        ext <;> simp [hcast] <;> field_simp <;> ring
  · intro start next hd0 hdsq
    exact resamplePair_sq_len_le env params origin role mm3 hb start next hd0 hdsq
  · intro upts hex l hl
    cases upts with
    | nil => simp [resamplePath] at hl
    | cons p0 rest =>
      rw [resamplePath] at hl
      rcases List.mem_cons.mp hl with rfl | hl2
      · simp only [mkLine, vec2_sub_def, Vec2.sqNorm]
        ring_nf
        positivity
      · simp only [List.mem_flatten, List.mem_map] at hl2
        obtain ⟨L, ⟨pr, hpr, rfl⟩, hlL⟩ := hl2
        have hmem := List.of_mem_zip hpr
        have h1 : pr.1 ∈ p0 :: rest := hmem.1
        have h2 : pr.2 ∈ p0 :: rest := List.mem_cons_of_mem _ hmem.2
        obtain ⟨he0, he1⟩ := hex pr.1 h1 pr.2 h2
        exact resamplePair_sq_len_le env params origin role mm3 hb pr.1 pr.2 he0 he1 l hlL

/-- Witness for C8 at the pair `(0,0) → (3,0)` with `bridge_distance = 2`:
two sub-segments, each within the squared length bound. -/
theorem c8_resampling_witness :
    (0 : ℚ) < paramsT.bridge_distance ∧
    (resamplePair envT paramsT 7 Role.other 1 ⟨0, 0⟩ ⟨3, 0⟩).length = 2 ∧
    ∀ l ∈ resamplePair envT paramsT 7 Role.other 1 ⟨0, 0⟩ ⟨3, 0⟩,
      (l.b - l.a).sqNorm ≤ paramsT.bridge_distance * paramsT.bridge_distance := by
  have hb : (0 : ℚ) < paramsT.bridge_distance := by norm_num [paramsT]
  have h := c8_resampling envT paramsT 7 Role.other 1 hb
  refine ⟨hb, ?_, ?_⟩
  · have h1 := (h.1 ⟨0, 0⟩ ⟨3, 0⟩).1
    rw [h1]
    have hs : envT.sqrt ((Vec2.mk 3 0 - Vec2.mk 0 0).sqNorm) = 3 := by
      norm_num [envT, sqrtT]
    rw [hs]
    have hc : ⌈(3 : ℚ) / paramsT.bridge_distance⌉ = 2 := by
      rw [show paramsT.bridge_distance = 2 from rfl]
      norm_num [Int.ceil_eq_iff]
    rw [hc]
    rfl
  · intro l hl
    refine h.2.1 ⟨0, 0⟩ ⟨3, 0⟩ ?_ ?_ l hl
    · norm_num [envT, sqrtT]
    · norm_num [envT, sqrtT]

/-- C2 counterexample: `is_stable_while_extruding` can return a negative
value.  With a well-anchored part (huge yield strengths) extruding a unit
line with no malformation, both torque balances are negative and the final
weak-connection fall-through returns the signed ratio `-990`. -/
theorem c2_stability_counterexample :
    ObjectPart.is_stable_while_extruding envT partC2 connC2 lineT 1 paramsT < 0 := by
  norm_num [ObjectPart.is_stable_while_extruding, bedTotalTorque, connTotalTorque,
    bedConflictArm, connConflictArm, compute_elastic_section_modulus, distance_to_line,
    extruderPressureDir, conflictForce, bedCentroid, massCentroid, connCentroid,
    normalized2, normalized3, norm2, norm3, envT, sqrtT, paramsT, partC2, connC2, lineT,
    EPSILON, Vec2.sqNorm, Vec3.sqNorm, Vec2.dot, Vec3.dot, Vec2.cwiseProduct,
    Vec2.cwiseAbs, Vec3.head2]

/-- C2 (amended): the stability estimate is nonnegative in the degenerate
guards and the bed case; only the final weak-connection fall-through may
return a negative (stable) signed ratio. -/
theorem c2_stability_sign (env : MathEnv) (part : ObjectPart) (conn : IslandConnection)
    (line : ExtrusionLine) (layer_z : ℚ) (params : Params)
    (hs : ∀ q, 0 ≤ env.sqrt q) :
    0 ≤ ObjectPart.is_stable_while_extruding env part conn line layer_z params ∨
    (¬ bedTotalTorque env part line layer_z params > 0 ∧
      ObjectPart.is_stable_while_extruding env part conn line layer_z params =
        connTotalTorque env part conn line layer_z params /
          connConflictArm env conn line layer_z) := by
  unfold ObjectPart.is_stable_while_extruding
  split_ifs with h1 h2 h3
  · left; norm_num
  · left
    refine div_nonneg (le_of_lt h2) ?_
    simp only [bedConflictArm, distance_to_line]
    exact hs _
  · left; norm_num
  · right; exact ⟨h2, rfl⟩

/-- Witness for C2 (amended) at the counterexample input: the fall-through
disjunct holds there. -/
theorem c2_stability_sign_witness :
    0 ≤ ObjectPart.is_stable_while_extruding envT partC2 connC2 lineT 1 paramsT ∨
    (¬ bedTotalTorque envT partC2 lineT 1 paramsT > 0 ∧
      ObjectPart.is_stable_while_extruding envT partC2 connC2 lineT 1 paramsT =
        connTotalTorque envT partC2 connC2 lineT 1 paramsT /
          connConflictArm envT connC2 lineT 1) :=
  c2_stability_sign envT partC2 connC2 lineT 1 paramsT (fun q => sqrtT_nonneg q)

/-- C3: the epsilon guards of `is_stable_while_extruding`.  A part whose
`sticking_area` is below `EPSILON` yields exactly `1` whatever its bed
accumulators hold; if the bed case falls through (no positive bed torque)
and the weakest connection's area is below `EPSILON`, the result is exactly
`1` whatever the connection accumulators hold. -/
theorem c3_epsilon_guards (env : MathEnv) (part : ObjectPart) (conn : IslandConnection)
    (line : ExtrusionLine) (layer_z : ℚ) (params : Params) :
    (part.sticking_area < EPSILON →
      ObjectPart.is_stable_while_extruding env part conn line layer_z params = 1 ∧
      ∀ c : Vec3, ∀ m : Vec2,
        ObjectPart.is_stable_while_extruding env
          { part with
            sticking_centroid_accumulator := c
            sticking_second_moment_of_area_accumulator := m } conn line layer_z params = 1) ∧
    (¬ part.sticking_area < EPSILON →
      ¬ bedTotalTorque env part line layer_z params > 0 →
      conn.area < EPSILON →
      ObjectPart.is_stable_while_extruding env part conn line layer_z params = 1 ∧
      ∀ c : Vec3, ∀ m : Vec2,
        ObjectPart.is_stable_while_extruding env part
          { conn with
            centroid_accumulator := c
            second_moment_of_area_accumulator := m } line layer_z params = 1) := by
  constructor
  · intro h
    constructor
    · unfold ObjectPart.is_stable_while_extruding
      rw [if_pos h]
    · intro c m
      unfold ObjectPart.is_stable_while_extruding
      rw [if_pos (by simpa using h)]
  · intro h1 h2 h3
    constructor
    · unfold ObjectPart.is_stable_while_extruding
      rw [if_neg h1, if_neg h2, if_pos h3]
    · intro c m
      unfold ObjectPart.is_stable_while_extruding
      rw [if_neg h1, if_neg h2, if_pos (by simpa using h3)]

/-- Witness for C3: a part with zero sticking area is reported `1` whatever
its bed accumulators are. -/
theorem c3_epsilon_guards_witness :
    ObjectPart.is_stable_while_extruding envT partZero connC2 lineT 1 paramsT = 1 ∧
    ObjectPart.is_stable_while_extruding envT
      { partZero with
        sticking_centroid_accumulator := ⟨5, 7, 9⟩
        sticking_second_moment_of_area_accumulator := ⟨3, 4⟩ } connC2 lineT 1 paramsT = 1 := by
  have h := (c3_epsilon_guards envT partZero connC2 lineT 1 paramsT).1
    (by norm_num [partZero, EPSILON])
  exact ⟨h.1, h.2 ⟨5, 7, 9⟩ ⟨3, 4⟩⟩

theorem iterate_stable (m : ℕ → ℕ) (i r k : ℕ) (hk : m^[k] i = r) (hr : isRoot m r) :
    ∀ t, k ≤ t → m^[t] i = r := by
  intro t ht
  obtain ⟨s, rfl⟩ := Nat.exists_eq_add_of_le ht
  rw [add_comm, Function.iterate_add_apply, hk]
  exact Function.iterate_fixed hr s

theorem iterate_lt (m : ℕ → ℕ) (n : ℕ) (h2 : ∀ x, x < n → m x < n) (x : ℕ) (hx : x < n) :
    ∀ k, m^[k] x < n := by
  intro k
  induction k with
  | zero => simpa using hx
  | succ k ih => rw [Function.iterate_succ_apply']; exact h2 _ ih

theorem iterate_agree_below (m m' : ℕ → ℕ) (n : ℕ) (hag : ∀ y, y < n → m' y = m y)
    (hcl : ∀ y, y < n → m y < n) (x : ℕ) (hx : x < n) : ∀ k, m'^[k] x = m^[k] x := by
  intro k
  induction k with
  | zero => rfl
  | succ k ih =>
    rw [Function.iterate_succ_apply', Function.iterate_succ_apply', ih]
    exact hag _ (iterate_lt m n hcl x hx k)

/-- Pigeonhole: a node below `n` that reaches a root reaches its first root
within `n` steps (the pre-root chain nodes are distinct and below `n`). -/
theorem first_root_le (m : ℕ → ℕ) (n : ℕ) (h2 : ∀ x, x < n → m x < n) (x : ℕ)
    (hx : x < n) (h : reachesRoot m x) :
    ∃ k, k ≤ n ∧ isRoot m (m^[k] x) ∧ ∀ j, j < k → ¬ isRoot m (m^[j] x) := by
  classical
  refine ⟨Nat.find h, ?_, Nat.find_spec h, fun j hj => Nat.find_min h hj⟩
  by_contra hK
  push_neg at hK
  have main : ∀ a b, a < b → b ≤ n → m^[a] x = m^[b] x → False := by
    intro a b hlt hble heq
    have hper : ∀ t, m^[a + t] x = m^[b + t] x := by
      intro t
      rw [add_comm a t, Function.iterate_add_apply, add_comm b t,
        Function.iterate_add_apply, heq]
    have hroot2 : isRoot m (m^[a + (Nat.find h - b)] x) := by
      rw [hper]
      have hb2 : b + (Nat.find h - b) = Nat.find h := by omega
      rw [hb2]
      exact Nat.find_spec h
    have hlt2 : a + (Nat.find h - b) < Nat.find h := by omega
    exact Nat.find_min h hlt2 hroot2
  have hmaps : ∀ j ∈ Finset.range (n + 1), m^[j] x ∈ Finset.range n := by
    intro j _
    exact Finset.mem_range.mpr (iterate_lt m n h2 x hx j)
  obtain ⟨a, ha, b, hb, hab, heq⟩ :=
    Finset.exists_ne_map_eq_of_card_lt_of_maps_to (by simp) hmaps
  rw [Finset.mem_range] at ha hb
  rcases lt_or_gt_of_ne hab with hlt | hlt
  · exact main a b hlt (by omega) heq
  · exact main b a hlt (by omega) heq.symm

/-- `rootFrom` follows the chain to the first fixpoint when the fuel covers
the distance. -/
theorem rootFrom_spec (m : ℕ → ℕ) :
    ∀ f j k, k ≤ f → isRoot m (m^[k] j) → (∀ j', j' < k → ¬ isRoot m (m^[j'] j)) →
      rootFrom m f j = m^[k] j := by
  intro f
  induction f with
  | zero =>
    intro j k hk hroot _
    interval_cases k
    simp [rootFrom]
  | succ f ih =>
    intro j k hk hroot hleast
    by_cases hj : m j = j
    · have hk0 : k = 0 := by
        by_contra hne
        exact hleast 0 (Nat.pos_of_ne_zero hne) hj
      subst hk0
      simp only [rootFrom, if_pos hj]
      rfl
    · have hk0 : k ≠ 0 := by
        rintro rfl
        exact hj hroot
      obtain ⟨k', rfl⟩ := Nat.exists_eq_succ_of_ne_zero hk0
      simp only [rootFrom, if_neg hj]
      have hroot' : isRoot m (m^[k'] (m j)) := by
        rwa [← Function.iterate_succ_apply]
      have hleast' : ∀ j', j' < k' → ¬ isRoot m (m^[j'] (m j)) := by
        intro j' hj'
        rw [← Function.iterate_succ_apply]
        exact hleast (j' + 1) (by omega)
      exact (ih (m j) k' (by omega) hroot' hleast').trans
        (by rw [← Function.iterate_succ_apply])

/-- `rootFrom` at a fixpoint returns it. -/
theorem rootFrom_fix (m : ℕ → ℕ) (f i : ℕ) (h : m i = i) : rootFrom m f i = i := by
  cases f with
  | zero => rfl
  | succ f => simp [rootFrom, h]

/-- `compressTo` on a node already mapping to the root is the identity. -/
theorem compressTo_fix (m : ℕ → ℕ) (r f i : ℕ) (h : m i = r) :
    compressTo m r f i = m := by
  cases f with
  | zero => rfl
  | succ f => simp [compressTo, h]

/-- Redirecting a node straight to a root preserves root reachability. -/
theorem reachesRoot_update (m : ℕ → ℕ) (i r : ℕ) (hri : r ≠ i) (hr : isRoot m r) :
    ∀ x, reachesRoot m x → reachesRoot (Function.update m i r) x := by
  have hr' : isRoot (Function.update m i r) r := by
    unfold isRoot
    rw [Function.update_noteq hri]
    exact hr
  suffices h : ∀ k x, isRoot m (m^[k] x) → reachesRoot (Function.update m i r) x by
    rintro x ⟨k, hk⟩
    exact h k x hk
  intro k
  induction k with
  | zero =>
    intro x hx
    by_cases hxi : x = i
    · subst hxi
      refine ⟨1, ?_⟩
      unfold isRoot
      rw [Function.iterate_one, Function.update_same, Function.update_noteq hri]
      exact hr
    · exact ⟨0, by simpa [isRoot, Function.update_noteq hxi] using hx⟩
  | succ k ih =>
    intro x hx
    by_cases hxi : x = i
    · subst hxi
      refine ⟨1, ?_⟩
      unfold isRoot
      rw [Function.iterate_one, Function.update_same, Function.update_noteq hri]
      exact hr
    · obtain ⟨k2, hk2⟩ := ih (m x) (by rwa [← Function.iterate_succ_apply])
      refine ⟨k2 + 1, ?_⟩
      rwa [Function.iterate_succ_apply, Function.update_noteq hxi]

/-- Path compression preserves the union-find invariant pieces: untouched
high ids, closure below `n`, root reachability, and the exact root set. -/
theorem compressTo_inv (n r : ℕ) (hr_lt : r < n) :
    ∀ f m i k, k ≤ f → m^[k] i = r → isRoot m r →
      (∀ x, n ≤ x → m x = x) → (∀ x, x < n → m x < n) →
      (∀ x, x < n → reachesRoot m x) →
      ((∀ x, n ≤ x → compressTo m r f i x = x) ∧
        (∀ x, x < n → compressTo m r f i x < n) ∧
        (∀ x, x < n → reachesRoot (compressTo m r f i) x) ∧
        (∀ x, isRoot (compressTo m r f i) x ↔ isRoot m x)) := by
  intro f
  induction f with
  | zero =>
    intro m i k hk hpath hroot h1 h2 h3
    simp only [compressTo]
    exact ⟨fun x hx => h1 x hx, h2, h3, fun x => trivial⟩
  | succ f ih =>
    intro m i k hk hpath hroot h1 h2 h3
    by_cases hir : m i = r
    · simp only [compressTo, if_pos hir]
      exact ⟨fun x hx => h1 x hx, h2, h3, fun x => trivial⟩
    · have hri : r ≠ i := by
        rintro rfl
        exact hir hroot
      have hii : m i ≠ i := by
        intro he
        have hri2 : r = i := by
          rw [← hpath]
          exact Function.iterate_fixed he k
        exact hri hri2
      have hk0 : k ≠ 0 := by
        rintro rfl
        exact hri hpath.symm
      obtain ⟨k', rfl⟩ := Nat.exists_eq_succ_of_ne_zero hk0
      have hi_lt : i < n := by
        by_contra hin
        exact hii (h1 i (Nat.le_of_not_lt hin))
      have hpath' : m^[k'] (m i) = r := by
        rwa [← Function.iterate_succ_apply]
      have horbit : ∀ j, j ≤ k' → m^[j] (m i) ≠ i := by
        intro j hj heq
        have hcyc : m^[j + 1] i = i := by
          rwa [Function.iterate_succ_apply]
        have hcycc : ∀ c, m^[(j + 1) * c] i = i := by
          intro c
          induction c with
          | zero => rfl
          | succ c ihc =>
            rw [Nat.mul_succ, Function.iterate_add_apply, hcyc, ihc]
        have hstab := iterate_stable m i r (k' + 1) hpath hroot
        have h1t : m^[(j + 1) * (k' + 1)] i = i := hcycc (k' + 1)
        have h2t : m^[(j + 1) * (k' + 1)] i = r :=
          hstab _ (Nat.le_mul_of_pos_left _ (by omega))
        have hre : r = i := by rw [← h2t, h1t]
        exact hri hre
      have hiter_eq : ∀ j, j ≤ k' → (Function.update m i r)^[j] (m i) = m^[j] (m i) := by
        intro j hj
        induction j with
        | zero => rfl
        | succ j ihj =>
          rw [Function.iterate_succ_apply', Function.iterate_succ_apply',
            ihj (by omega)]
          exact Function.update_noteq (horbit j (by omega)) _ _
      have hm1path : (Function.update m i r)^[k'] (m i) = r := by
        rw [hiter_eq k' le_rfl]
        exact hpath'
      have hm1root : isRoot (Function.update m i r) r := by
        unfold isRoot
        rw [Function.update_noteq hri]
        exact hroot
      have hm1h1 : ∀ x, n ≤ x → Function.update m i r x = x := by
        intro x hx
        have hxi : x ≠ i := by rintro rfl; omega
        rw [Function.update_noteq hxi]
        exact h1 x hx
      have hm1h2 : ∀ x, x < n → Function.update m i r x < n := by
        intro x hx
        by_cases hxi : x = i
        · subst hxi
          rw [Function.update_same]
          exact hr_lt
        · rw [Function.update_noteq hxi]
          exact h2 x hx
      have hm1h3 : ∀ x, x < n → reachesRoot (Function.update m i r) x :=
        fun x hx => reachesRoot_update m i r hri hroot x (h3 x hx)
      have hres := ih (Function.update m i r) (m i) k' (by omega) hm1path hm1root
        hm1h1 hm1h2 hm1h3
      have hdef : compressTo m r (f + 1) i = compressTo (Function.update m i r) r f (m i) := by
        simp [compressTo, hir]
      rw [hdef]
      refine ⟨hres.1, hres.2.1, hres.2.2.1, ?_⟩
      intro x
      rw [hres.2.2.2 x]
      by_cases hxi : x = i
      · subst hxi
        unfold isRoot
        rw [Function.update_same]
        constructor
        · intro h'
          exact absurd h' hri
        · intro h'
          exact absurd h' hii
      · unfold isRoot
        rw [Function.update_noteq hxi]

/-- The flat id of an inserted id is a root below `next_part_idx`, reached
by iterating the mapping. -/
theorem get_flat_root (st : ActiveObjectParts) (hinv : UFInv st) (id : ℕ)
    (hid : id < st.next_part_idx) :
    isRoot st.idmap (st.get_flat_id id).1 ∧
    (st.get_flat_id id).1 < st.next_part_idx ∧
    ∃ k, k ≤ st.next_part_idx ∧ st.idmap^[k] id = (st.get_flat_id id).1 := by
  obtain ⟨h1, h2, h3, h4⟩ := hinv
  obtain ⟨K, hKle, hKroot, hKleast⟩ :=
    first_root_le st.idmap st.next_part_idx h2 id hid (h3 id hid)
  have hfst : (st.get_flat_id id).1 = rootFrom st.idmap st.next_part_idx (st.idmap id) := rfl
  cases K with
  | zero =>
    have hidroot : isRoot st.idmap id := by simpa using hKroot
    have he : st.idmap id = id := hidroot
    rw [hfst, he, rootFrom_fix _ _ _ he]
    exact ⟨hidroot, hid, 0, by omega, rfl⟩
  | succ K' =>
    have hroot' : isRoot st.idmap (st.idmap^[K'] (st.idmap id)) := by
      rwa [← Function.iterate_succ_apply]
    have hleast' : ∀ j, j < K' → ¬ isRoot st.idmap (st.idmap^[j] (st.idmap id)) := by
      intro j hj
      rw [← Function.iterate_succ_apply]
      exact hKleast (j + 1) (by omega)
    have hspec := rootFrom_spec st.idmap st.next_part_idx (st.idmap id) K'
      (by omega) hroot' hleast'
    rw [hfst, hspec]
    refine ⟨hroot', iterate_lt _ _ h2 _ (h2 id hid) K', K' + 1, by omega, ?_⟩
    rw [Function.iterate_succ_apply]

/-- `get_flat_id` preserves the union-find invariant; it does not change
`next_part_idx`, the payloads, or the root set. -/
theorem UFInv_get_flat_id (st : ActiveObjectParts) (h : UFInv st) (id : ℕ) :
    UFInv (st.get_flat_id id).2 ∧
    (st.get_flat_id id).2.next_part_idx = st.next_part_idx ∧
    (st.get_flat_id id).2.parts = st.parts ∧
    (∀ x, isRoot (st.get_flat_id id).2.idmap x ↔ isRoot st.idmap x) := by
  obtain ⟨h1, h2, h3, h4⟩ := h
  have hmapdef : (st.get_flat_id id).2.idmap =
      compressTo st.idmap (rootFrom st.idmap st.next_part_idx (st.idmap id))
        st.next_part_idx id := rfl
  by_cases hid : id < st.next_part_idx
  · obtain ⟨hroot, hRlt, k, hk, hpathk⟩ := get_flat_root st ⟨h1, h2, h3, h4⟩ id hid
    have hcomp := compressTo_inv st.next_part_idx (st.get_flat_id id).1 hRlt
      st.next_part_idx st.idmap id k hk hpathk hroot
      (fun x hx => (h1 x hx).1) h2 h3
    refine ⟨⟨?_, ?_, ?_, ?_⟩, rfl, rfl, ?_⟩
    · intro x hx
      exact ⟨hcomp.1 x hx, (h1 x hx).2⟩
    · exact hcomp.2.1
    · exact hcomp.2.2.1
    · intro x
      rw [show ((st.get_flat_id id).2.parts x) = st.parts x from rfl]
      rw [h4 x]
      have := hcomp.2.2.2 x
      constructor
      · intro hx2
        exact ⟨hx2.1, (this.mpr hx2.2)⟩
      · intro hx2
        exact ⟨hx2.1, (this.mp hx2.2)⟩
    · exact hcomp.2.2.2
  · have hfix : st.idmap id = id := (h1 id (Nat.le_of_not_lt hid)).1
    have hmap : (st.get_flat_id id).2.idmap = st.idmap := by
      rw [hmapdef, hfix, rootFrom_fix _ _ _ hfix]
      exact compressTo_fix _ _ _ _ hfix
    refine ⟨⟨?_, ?_, ?_, ?_⟩, rfl, rfl, ?_⟩
    · intro x hx
      rw [hmap]
      exact h1 x hx
    · intro x hx
      rw [hmap]
      exact h2 x hx
    · intro x hx
      rw [hmap]
      exact h3 x hx
    · intro x
      rw [hmap]
      exact h4 x
    · intro x
      rw [hmap]

/-- `insert` preserves the union-find invariant. -/
theorem UFInv_insert (st : ActiveObjectParts) (isl : Island) (h : UFInv st) :
    UFInv (st.insert isl).2 := by
  obtain ⟨h1, h2, h3, h4⟩ := h
  set n := st.next_part_idx with hn
  refine ⟨?_, ?_, ?_, ?_⟩
  · intro x hx
    have hxn : x ≠ n := by
      simp only [ActiveObjectParts.insert] at hx
      omega
    constructor
    · simp only [ActiveObjectParts.insert, Function.update_noteq hxn]
      exact (h1 x (by simp only [ActiveObjectParts.insert] at hx; omega)).1
    · simp only [ActiveObjectParts.insert, Function.update_noteq hxn]
      exact (h1 x (by simp only [ActiveObjectParts.insert] at hx; omega)).2
  · intro x hx
    simp only [ActiveObjectParts.insert] at hx ⊢
    by_cases hxn : x = n
    · subst hxn
      rw [Function.update_same]
      omega
    · rw [Function.update_noteq hxn]
      have := h2 x (by omega)
      omega
  · intro x hx
    simp only [ActiveObjectParts.insert] at hx ⊢
    by_cases hxn : x = n
    · subst hxn
      exact ⟨0, by simp [isRoot, Function.update_same]⟩
    · have hx2 : x < n := by omega
      obtain ⟨k, hk⟩ := h3 x hx2
      have hag : ∀ y, y < n → Function.update st.idmap n n y = st.idmap y := by
        intro y hy
        exact Function.update_noteq (by omega) _ _
      refine ⟨k, ?_⟩
      have hiter := iterate_agree_below st.idmap (Function.update st.idmap n n) n hag h2 x hx2
      unfold isRoot
      rw [hiter k, hag _ (iterate_lt _ _ h2 x hx2 k)]
      exact hk
  · intro x
    simp only [ActiveObjectParts.insert]
    by_cases hxn : x = n
    · subst hxn
      simp [isRoot, Function.update_same]
    · rw [Function.update_noteq hxn]
      rw [h4 x]
      unfold isRoot
      rw [Function.update_noteq hxn]
      constructor
      · intro hx2
        exact ⟨by omega, hx2.2⟩
      · intro hx2
        have hxlt : x < n := by
          rcases Nat.lt_succ_iff_lt_or_eq.mp hx2.1 with hlt | he
          · exact hlt
          · exact absurd he hxn
        exact ⟨hxlt, hx2.2⟩

/-- Shape of a successful `merge`: both representative payloads exist, the
winner accumulates the loser, the loser's entry is erased, and `from` is
redirected to the winner's root. -/
theorem merge_eq (st : ActiveObjectParts) (fro toid : ℕ) (pt pf : ObjectPart)
    (hpt : st.parts ((st.get_flat_id toid).1) = some pt)
    (hpf : st.parts (((st.get_flat_id toid).2.get_flat_id fro).1) = some pf) :
    st.merge fro toid = some
      { next_part_idx := st.next_part_idx
        parts := Function.update
          (Function.update st.parts ((st.get_flat_id toid).1) (some (pt.add pf)))
          (((st.get_flat_id toid).2.get_flat_id fro).1) none
        idmap := Function.update (((st.get_flat_id toid).2.get_flat_id fro).2.idmap)
          fro ((st.get_flat_id toid).1) } := by
  simp only [ActiveObjectParts.merge, ActiveObjectParts.get_flat_id] at hpt hpf ⊢
  rw [hpt, hpf]

/-- `merge`, called with a `from` that is a live representative distinct from
`to`'s representative, preserves the union-find invariant and the id
counter. -/
theorem UFInv_merge (st : ActiveObjectParts) (fro toid : ℕ) (st' : ActiveObjectParts)
    (h : UFInv st) (hfro_root : st.idmap fro = fro) (hfro_lt : fro < st.next_part_idx)
    (hne : (st.get_flat_id toid).1 ≠ fro) (hm : st.merge fro toid = some st') :
    UFInv st' ∧ st'.next_part_idx = st.next_part_idx := by
  obtain ⟨hInv1, hn1, hp1, hr1⟩ := UFInv_get_flat_id st h toid
  by_cases htoid : toid < st.next_part_idx
  · obtain ⟨htroot, htlt, -⟩ := get_flat_root st h toid htoid
    have htroot1 : isRoot (st.get_flat_id toid).2.idmap ((st.get_flat_id toid).1) :=
      (hr1 _).mpr htroot
    have hfroroot1 : isRoot (st.get_flat_id toid).2.idmap fro := (hr1 fro).mpr hfro_root
    have he1 : (st.get_flat_id toid).2.idmap fro = fro := hfroroot1
    have hfF : ((st.get_flat_id toid).2.get_flat_id fro).1 = fro := by
      show rootFrom (st.get_flat_id toid).2.idmap (st.get_flat_id toid).2.next_part_idx
        ((st.get_flat_id toid).2.idmap fro) = fro
      rw [he1]
      exact rootFrom_fix _ _ _ he1
    have hmap2 : ((st.get_flat_id toid).2.get_flat_id fro).2.idmap =
        (st.get_flat_id toid).2.idmap := by
      show compressTo (st.get_flat_id toid).2.idmap
        (rootFrom (st.get_flat_id toid).2.idmap (st.get_flat_id toid).2.next_part_idx
          ((st.get_flat_id toid).2.idmap fro))
        (st.get_flat_id toid).2.next_part_idx fro = (st.get_flat_id toid).2.idmap
      rw [he1, rootFrom_fix _ _ _ he1]
      exact compressTo_fix _ _ _ _ he1
    obtain ⟨pt, hpt⟩ := Option.isSome_iff_exists.mp ((h.2.2.2 _).mpr ⟨htlt, htroot⟩)
    obtain ⟨pf, hpf⟩ := Option.isSome_iff_exists.mp ((h.2.2.2 fro).mpr ⟨hfro_lt, hfro_root⟩)
    have hm' := merge_eq st fro toid pt pf hpt (by rw [hfF]; exact hpf)
    rw [hm'] at hm
    obtain rfl := Option.some.inj hm
    obtain ⟨g1, g2, g3, g4⟩ := hInv1
    rw [hn1] at g1 g2 g3
    have hneq : (st.get_flat_id toid).1 ≠ fro := hne
    refine ⟨⟨?_, ?_, ?_, ?_⟩, rfl⟩
    · intro x hx
      replace hx : st.next_part_idx ≤ x := hx
      have hxf : x ≠ fro := by omega
      have hxt : x ≠ (st.get_flat_id toid).1 := by omega
      constructor
      · dsimp only
        rw [Function.update_noteq hxf, hmap2]
        exact (g1 x hx).1
      · dsimp only
        rw [hfF, Function.update_noteq hxf, Function.update_noteq hxt]
        exact (h.1 x hx).2
    · intro x hx
      replace hx : x < st.next_part_idx := hx
      dsimp only
      by_cases hxf : x = fro
      · subst hxf
        rw [Function.update_same]
        exact htlt
      · rw [Function.update_noteq hxf, hmap2]
        exact g2 x hx
    · intro x hx
      replace hx : x < st.next_part_idx := hx
      dsimp only
      have hres := reachesRoot_update ((st.get_flat_id toid).2.get_flat_id fro).2.idmap
        fro ((st.get_flat_id toid).1) hneq (by rw [hmap2]; exact htroot1) x
      apply hres
      rw [hmap2]
      exact g3 x hx
    · intro x
      dsimp only
      rw [hfF]
      by_cases hxf : x = fro
      · subst hxf
        rw [Function.update_same]
        simp only [Option.isSome_none, Bool.false_eq_true, false_iff, not_and]
        intro _
        unfold isRoot
        rw [Function.update_same]
        exact fun he => hneq he
      · rw [Function.update_noteq hxf]
        by_cases hxt : x = (st.get_flat_id toid).1
        · subst hxt
          rw [Function.update_same]
          simp only [Option.isSome_some, true_iff]
          constructor
          · exact htlt
          · unfold isRoot
            rw [Function.update_noteq hxf, hmap2]
            exact htroot1
        · rw [Function.update_noteq hxt]
          have h4x := h.2.2.2 x
          rw [h4x]
          have hri : isRoot (Function.update ((st.get_flat_id toid).2.get_flat_id
              fro).2.idmap fro ((st.get_flat_id toid).1)) x ↔ isRoot st.idmap x := by
            unfold isRoot
            rw [Function.update_noteq hxf, hmap2]
            exact hr1 x
          rw [hri]
  · have hfix : st.idmap toid = toid := (h.1 toid (Nat.le_of_not_lt htoid)).1
    have htF : (st.get_flat_id toid).1 = toid := by
      show rootFrom st.idmap st.next_part_idx (st.idmap toid) = toid
      rw [hfix]
      exact rootFrom_fix _ _ _ hfix
    have hnone : st.parts ((st.get_flat_id toid).1) = none := by
      rw [htF]
      exact (h.1 toid (Nat.le_of_not_lt htoid)).2
    exfalso
    simp only [ActiveObjectParts.merge, ActiveObjectParts.get_flat_id] at hm hnone
    rw [hnone] at hm
    simp at hm

theorem UFInv_initial : UFInv initialParts := by
  refine ⟨?_, ?_, ?_, ?_⟩
  · intro x _
    exact ⟨rfl, rfl⟩
  · intro x hx
    exact absurd hx (Nat.not_lt_zero x)
  · intro x hx
    exact absurd hx (Nat.not_lt_zero x)
  · intro x
    simp [initialParts]

/-- Every reachable part-tracker state satisfies the union-find invariant. -/
theorem UFInv_reachable (st : ActiveObjectParts) (h : ReachableUF st) : UFInv st := by
  induction h with
  | init => exact UFInv_initial
  | ins st isl _ ih => exact UFInv_insert st isl ih
  | fnd st id _ ih => exact (UFInv_get_flat_id st ih id).1
  | mrg st fro toid st' _ h1 h2 h3 hm ih =>
    exact (UFInv_merge st fro toid st' ih h1 h2 h3 hm).1

/-- C9 (amended): in every state the analyzer can reach (inserts, finds, and
merges whose `from` argument is at call time a live representative distinct
from `to`'s representative — the call discipline of the global pass), for
every id handed out by `insert` the flat id is a key of the live
representative map, `find` is idempotent even across its own path
compression, and `access` finds an existing `ObjectPart`. -/
theorem c9_union_find_find (st : ActiveObjectParts) (h : ReachableUF st) (id : ℕ)
    (hid : id < st.next_part_idx) :
    ((st.get_flat_id id).2.parts ((st.get_flat_id id).1)).isSome = true ∧
    ((st.get_flat_id id).2.get_flat_id ((st.get_flat_id id).1)).1 =
      (st.get_flat_id id).1 ∧
    (st.access id).isSome = true := by
  have hinv := UFInv_reachable st h
  obtain ⟨hroot, hlt, -⟩ := get_flat_root st hinv id hid
  obtain ⟨hinv', hn', hp', hr'⟩ := UFInv_get_flat_id st hinv id
  have hSome : ((st.get_flat_id id).2.parts ((st.get_flat_id id).1)).isSome = true := by
    rw [hp']
    exact (hinv.2.2.2 _).mpr ⟨hlt, hroot⟩
  refine ⟨hSome, ?_, ?_⟩
  · have hroot' : isRoot (st.get_flat_id id).2.idmap ((st.get_flat_id id).1) :=
      (hr' _).mpr hroot
    have he : (st.get_flat_id id).2.idmap ((st.get_flat_id id).1) =
        (st.get_flat_id id).1 := hroot'
    show rootFrom (st.get_flat_id id).2.idmap (st.get_flat_id id).2.next_part_idx
      ((st.get_flat_id id).2.idmap ((st.get_flat_id id).1)) = (st.get_flat_id id).1
    rw [he]
    exact rootFrom_fix _ _ _ he
  · obtain ⟨p, hp⟩ := Option.isSome_iff_exists.mp hSome
    simp [ActiveObjectParts.access, hp]

/-- Witness for C9 (amended): one insert, then querying id `0`. -/
theorem c9_union_find_find_witness :
    (((initialParts.insert {}).2.get_flat_id 0).2.parts
      (((initialParts.insert {}).2.get_flat_id 0).1)).isSome = true ∧
    (((initialParts.insert {}).2.get_flat_id 0).2.get_flat_id
      (((initialParts.insert {}).2.get_flat_id 0).1)).1 =
      ((initialParts.insert {}).2.get_flat_id 0).1 ∧
    ((initialParts.insert {}).2.access 0).isSome = true :=
  c9_union_find_find _ (ReachableUF.ins initialParts {} ReachableUF.init) 0 (by decide)

/-- C9 counterexample: after `insert; insert; insert; merge(0,1); merge(0,2)`
— a sequence of plain inserts and merges — id `1` (returned by the second
insert) has `find(1) = 1`, yet `1` is no longer a key of the live
representative map: `access(1)` finds nothing (the source would throw).  The
second merge's `from = 0` is not a representative at call time, and `merge`
erases the root of `0` (which is `1`) while leaving `1` mapped to itself. -/
theorem c9_union_find_counterexample :
    (applyOps initialParts ufOpsCE).isSome = true ∧
    1 < ufStateCE.next_part_idx ∧
    (ufStateCE.get_flat_id 1).1 = 1 ∧
    ufStateCE.parts ((ufStateCE.get_flat_id 1).1) = none ∧
    ufStateCE.access 1 = none := by
  refine ⟨by decide, by decide, by decide, by decide, rfl⟩

theorem gridFoldCells (k : PixelGrid → ℚ → ℤ × ℤ)
    (hk : ∀ g c q, k (setCells g c) q = k g q) (v : Option ℕ) :
    ∀ (l : List ℚ) (g : PixelGrid),
      l.foldl (fun g2 q => setCells g2 (Function.update g2.cells (k g2 q) v)) g =
        setCells g (l.foldl (fun cs q => Function.update cs (k g q) v) g.cells) := by
  intro l
  induction l with
  | nil => intro g; rfl
  | cons q l ih =>
    intro g
    simp only [List.foldl_cons]
    rw [ih]
    simp only [hk]
    rfl

theorem distribute_edge_eq (env : MathEnv) (g : PixelGrid) (p1 p2 : Vec2) (v : Option ℕ) :
    distribute_edge env g p1 p2 v =
      if env.sqrt (p2 - p1).sqNorm < 1/10 then g
      else setCells g
        ((edgeSamples (env.sqrt (p2 - p1).sqNorm) (g.pixel_size / 2)).foldl
          (fun cs q => Function.update cs
            (toPixelCoords g (p1 + (q / env.sqrt (p2 - p1).sqNorm) • (p2 - p1))) v)
          g.cells) := by
  by_cases h : env.sqrt (p2 - p1).sqNorm < 1/10
  · rw [if_pos h]
    unfold distribute_edge
    rw [if_pos h]
  · rw [if_neg h]
    simp only [distribute_edge]
    rw [if_neg h]
    exact gridFoldCells
      (fun g2 q => toPixelCoords g2 (p1 + (q / env.sqrt (p2 - p1).sqNorm) • (p2 - p1)))
      (fun _ _ _ => rfl) v _ g

theorem distribute_edge_pixel_size (env : MathEnv) (g : PixelGrid) (p1 p2 : Vec2)
    (v : Option ℕ) : (distribute_edge env g p1 p2 v).pixel_size = g.pixel_size := by
  rw [distribute_edge_eq]
  split <;> rfl

theorem distribute_edge_origin (env : MathEnv) (g : PixelGrid) (p1 p2 : Vec2)
    (v : Option ℕ) : (distribute_edge env g p1 p2 v).origin = g.origin := by
  rw [distribute_edge_eq]
  split <;> rfl

theorem distribute_edge_pixel_count (env : MathEnv) (g : PixelGrid) (p1 p2 : Vec2)
    (v : Option ℕ) : (distribute_edge env g p1 p2 v).pixel_count = g.pixel_count := by
  rw [distribute_edge_eq]
  split <;> rfl

theorem foldl_update_exists (kf : ℚ → ℤ × ℤ) (v : Option ℕ) :
    ∀ (l : List ℚ), l ≠ [] → ∀ (cs : ℤ × ℤ → Option ℕ),
      ∃ c, (l.foldl (fun cs2 q => Function.update cs2 (kf q) v) cs) c = v := by
  intro l
  induction l with
  | nil => intro h; exact absurd rfl h
  | cons q l ih =>
    intro _ cs
    cases l with
    | nil => exact ⟨kf q, Function.update_same _ _ _⟩
    | cons q2 l2 =>
      simp only [List.foldl_cons]
      exact ih (by simp) _

/-- C5 (amended): a single `distribute_edge` call whose segment length (as
computed by the cached square root) is at least `0.1` and whose grid has a
positive pixel size writes its `value` into at least one cell.  The claim's
layer-wide form fails: a later segment of another island can overwrite every
cell (see the counterexample), and segments with
`pixel_size/2 ≤ length < 0.1` are skipped. -/
theorem c5_raster_covering (env : MathEnv) (g : PixelGrid) (p1 p2 : Vec2) (v : Option ℕ)
    (hlen : 1/10 ≤ env.sqrt (p2 - p1).sqNorm) (hps : 0 < g.pixel_size) :
    ∃ c, (distribute_edge env g p1 p2 v).cells c = v := by
  rw [distribute_edge_eq, if_neg (not_lt.mpr hlen)]
  have hlen0 : (0 : ℚ) < env.sqrt (p2 - p1).sqNorm := lt_of_lt_of_le (by norm_num) hlen
  have hstep : (0 : ℚ) < g.pixel_size / 2 := by positivity
  have hne : edgeSamples (env.sqrt (p2 - p1).sqNorm) (g.pixel_size / 2) ≠ [] := by
    unfold edgeSamples
    have hpos : (0 : ℚ) < env.sqrt (p2 - p1).sqNorm / (g.pixel_size / 2) :=
      div_pos hlen0 hstep
    have h1 : (1 : ℤ) ≤ ⌈env.sqrt (p2 - p1).sqNorm / (g.pixel_size / 2)⌉ :=
      Int.ceil_pos.mpr hpos
    simp only [ne_eq, List.map_eq_nil, List.range_eq_nil]
    omega
  exact foldl_update_exists _ v _ hne g.cells

theorem c5_raster_covering_witness :
    1/10 ≤ envT.sqrt ((⟨1, 0⟩ - ⟨0, 0⟩ : Vec2)).sqNorm ∧ 0 < gridC5.pixel_size ∧
      ∃ c, (distribute_edge envT gridC5 ⟨0, 0⟩ ⟨1, 0⟩ (some 0)).cells c = some 0 := by
  have h1 : 1/10 ≤ envT.sqrt ((⟨1, 0⟩ - ⟨0, 0⟩ : Vec2) : Vec2).sqNorm := by
    norm_num [envT, sqrtT, Vec2.sqNorm]
  have h2 : 0 < gridC5.pixel_size := by
    show (0 : ℚ) < 1
    norm_num
  exact ⟨h1, h2, c5_raster_covering envT gridC5 ⟨0, 0⟩ ⟨1, 0⟩ (some 0) h1 h2⟩

theorem segNearestC5A : segNearest lineC5A ⟨0, 0⟩ = ⟨0, 0⟩ := by
  norm_num [segNearest, lineC5A, Vec2.dot, Vec2.sqNorm]

theorem segNearestC5B : segNearest lineC5B ⟨0, 0⟩ = ⟨0, 0⟩ := by
  norm_num [segNearest, lineC5B, Vec2.dot, Vec2.sqNorm]

theorem nearestC5A : nearestLineIdx [lineC5A] ⟨0, 0⟩ = some (0, ⟨0, 0⟩, 0) := by
  simp only [nearestLineIdx, List.length_singleton, show List.range 1 = [0] from rfl,
    List.foldl_cons, List.foldl_nil,
    show ([lineC5A][0]? : Option ExtrusionLine) = some lineC5A from rfl, segNearestC5A]
  norm_num [segNearestC5A, Vec2.sqNorm]

theorem nearestC5B : nearestLineIdx [lineC5B] ⟨0, 0⟩ = some (0, ⟨0, 0⟩, 0) := by
  simp only [nearestLineIdx, List.length_singleton, show List.range 1 = [0] from rfl,
    List.foldl_cons, List.foldl_nil,
    show ([lineC5B][0]? : Option ExtrusionLine) = some lineC5B from rfl, segNearestC5B]
  norm_num [segNearestC5B, Vec2.sqNorm]

theorem sdistC5A : signed_distance_from_lines envT [lineC5A] ⟨0, 0⟩ = some (0, 0, ⟨0, 0⟩) := by
  simp only [signed_distance_from_lines, nearestC5A]
  norm_num [envT, sqrtT, lineC5A, Vec2.cross, List.getD]

theorem sdistC5B : signed_distance_from_lines envT [lineC5B] ⟨0, 0⟩ = some (0, 0, ⟨0, 0⟩) := by
  simp only [signed_distance_from_lines, nearestC5B]
  norm_num [envT, sqrtT, lineC5B, Vec2.cross, List.getD]

theorem mergeNestedC5 : mergeNestedIslands envT [[lineC5A], [lineC5B]] [[0], [1]] = [[0], [1]] := by
  have hlen2 : ([[lineC5A], [lineC5B]] : List (List ExtrusionLine)).length = 2 := rfl
  have g0 : ([[lineC5A], [lineC5B]] : List (List ExtrusionLine))[0]? = some [lineC5A] := rfl
  have g1 : ([[lineC5A], [lineC5B]] : List (List ExtrusionLine))[1]? = some [lineC5B] := rfl
  have ha : lineC5A.a = (⟨0, 0⟩ : Vec2) := rfl
  have hb : lineC5B.a = (⟨0, 0⟩ : Vec2) := rfl
  simp only [mergeNestedIslands, hlen2, show List.range 2 = [0, 1] from rfl, List.foldl_cons,
    List.foldl_nil, List.getD_eq_getElem?_getD, g0, g1, Option.getD_some, ha, hb]
  norm_num [ha, hb, sdistC5A, sdistC5B]

theorem reckonExtC5 : reckonExt envT linesC5 = ([(0, 1), (1, 2)], [[0], [1]]) := by
  have h1 : groupExtrusions linesC5 = [(0, 1), (1, 2)] := rfl
  have h2 : islandCandidates linesC5 [(0, 1), (1, 2)] = ([[lineC5A], [lineC5B]], [[0], [1]]) := rfl
  have h3 : assignExtrusions envT linesC5 [(0, 1), (1, 2)] [[lineC5A], [lineC5B]] [[0], [1]] =
      [[0], [1]] := rfl
  simp only [reckonExt, h1, h2, h3, mergeNestedC5]

theorem reckonMappingC5 : reckonMapping envT linesC5 = lineIslandMap [(0, 1), (1, 2)] [[0], [1]] := by
  rw [reckonMapping, reckonExtC5]

theorem reckonMappingC5_zero : reckonMapping envT linesC5 0 = some 0 := by
  rw [reckonMappingC5]
  rfl

theorem reckonMappingC5_one : reckonMapping envT linesC5 1 = some 1 := by
  rw [reckonMappingC5]
  rfl

theorem gridC5_pixel_size : (clearGrid gridC5).pixel_size = 1 := rfl

theorem gridC5_origin_x : (clearGrid gridC5).origin.x = -(1/500000) := by
  norm_num [clearGrid, gridC5, mkPixelGrid, poC5, unscaledPt, SCALING_FACTOR]

theorem gridC5_origin_y : (clearGrid gridC5).origin.y = -(1/500000) := by
  norm_num [clearGrid, gridC5, mkPixelGrid, poC5, unscaledPt, SCALING_FACTOR]

theorem gridC5_coords_half : toPixelCoords (clearGrid gridC5) ⟨1/2, 0⟩ = (0, 0) := by
  simp only [toPixelCoords, gridC5_origin_x, gridC5_origin_y, gridC5_pixel_size]
  norm_num [qtrunc, Int.floor_eq_iff]

theorem gridC5_coords_one : toPixelCoords (clearGrid gridC5) ⟨1, 0⟩ = (1, 0) := by
  simp only [toPixelCoords, gridC5_origin_x, gridC5_origin_y, gridC5_pixel_size]
  norm_num [qtrunc, Int.floor_eq_iff]

theorem edgeSamples_one_half : edgeSamples 1 (1/2) = [1/2, 1] := by
  norm_num [edgeSamples, show Int.toNat 2 = 2 from rfl, show List.range 2 = [0, 1] from rfl,
    min_def]

theorem toPixelCoords_setCells (g : PixelGrid) (cs : ℤ × ℤ → Option ℕ) (p : Vec2) :
    toPixelCoords (setCells g cs) p = toPixelCoords g p := rfl

theorem setCells_pixel_size (g : PixelGrid) (cs : ℤ × ℤ → Option ℕ) :
    (setCells g cs).pixel_size = g.pixel_size := rfl

theorem sqNormC5A : envT.sqrt ((lineC5A.b - lineC5A.a)).sqNorm = 1 := by
  norm_num [lineC5A, envT, sqrtT, Vec2.sqNorm]

theorem sqNormC5B : envT.sqrt ((lineC5B.b - lineC5B.a)).sqNorm = 1 := by
  norm_num [lineC5B, envT, sqrtT, Vec2.sqNorm]

theorem distributeC5_first : distribute_edge envT (clearGrid gridC5) lineC5A.a lineC5A.b (some 0) =
    setCells (clearGrid gridC5)
      (Function.update (Function.update (clearGrid gridC5).cells (0, 0) (some 0))
        (1, 0) (some 0)) := by
  rw [distribute_edge_eq, sqNormC5A, if_neg (by norm_num : ¬ (1 : ℚ) < 1/10),
    gridC5_pixel_size, edgeSamples_one_half]
  simp only [List.foldl_cons, List.foldl_nil]
  have hp1 : lineC5A.a + ((1/2 : ℚ) / 1) • (lineC5A.b - lineC5A.a) = (⟨1/2, 0⟩ : Vec2) := by
    norm_num [lineC5A]
  have hp2 : lineC5A.a + ((1 : ℚ) / 1) • (lineC5A.b - lineC5A.a) = (⟨1, 0⟩ : Vec2) := by
    norm_num [lineC5A]
  rw [hp1, hp2, gridC5_coords_half, gridC5_coords_one]

theorem distributeC5_second : distribute_edge envT
    (setCells (clearGrid gridC5)
      (Function.update (Function.update (clearGrid gridC5).cells (0, 0) (some 0))
        (1, 0) (some 0))) lineC5B.a lineC5B.b (some 1) =
    setCells (clearGrid gridC5)
      (Function.update (Function.update
        (Function.update (Function.update (clearGrid gridC5).cells (0, 0) (some 0))
          (1, 0) (some 0)) (0, 0) (some 1)) (1, 0) (some 1)) := by
  rw [distribute_edge_eq, sqNormC5B, if_neg (by norm_num : ¬ (1 : ℚ) < 1/10),
    setCells_pixel_size, gridC5_pixel_size, edgeSamples_one_half]
  simp only [List.foldl_cons, List.foldl_nil, toPixelCoords_setCells]
  have hp1 : lineC5B.a + ((1/2 : ℚ) / 1) • (lineC5B.b - lineC5B.a) = (⟨1/2, 0⟩ : Vec2) := by
    norm_num [lineC5B]
  have hp2 : lineC5B.a + ((1 : ℚ) / 1) • (lineC5B.b - lineC5B.a) = (⟨1, 0⟩ : Vec2) := by
    norm_num [lineC5B]
  rw [hp1, hp2, gridC5_coords_half, gridC5_coords_one]
  rfl

theorem rasterC5 : rasterizeLayer envT (clearGrid gridC5) linesC5 (reckonMapping envT linesC5) =
    setCells (clearGrid gridC5)
      (Function.update (Function.update
        (Function.update (Function.update (clearGrid gridC5).cells (0, 0) (some 0))
          (1, 0) (some 0)) (0, 0) (some 1)) (1, 0) (some 1)) := by
  have h2 : linesC5.length = 2 := rfl
  simp only [rasterizeLayer, h2, show List.range 2 = [0, 1] from rfl, List.foldl_cons,
    List.foldl_nil, show linesC5.get? 0 = some lineC5A from rfl,
    show linesC5.get? 1 = some lineC5B from rfl, reckonMappingC5_zero, reckonMappingC5_one]
  rw [distributeC5_first, distributeC5_second]

theorem coreGridC5 : (reckonIslandsCore envT 0 1 true gridC5 linesC5 paramsT).2 =
    rasterizeLayer envT (clearGrid gridC5) linesC5 (reckonMapping envT linesC5) := rfl

theorem reckonC5_eq : reckon_islands envT layerC5 true gridC5 linesC5 paramsT =
    some (reckonIslandsCore envT 0 1 true gridC5 linesC5 paramsT) := rfl

theorem coreGridC5_cells :
    ∀ c, (reckonIslandsCore envT 0 1 true gridC5 linesC5 paramsT).2.cells c ≠ some 0 := by
  rw [coreGridC5, rasterC5]
  intro c
  by_cases h2 : c = ((1 : ℤ), (0 : ℤ))
  · subst h2
    simp [setCells, Function.update]
  · by_cases h1 : c = (0 : ℤ × ℤ)
    · subst h1
      simp [setCells, Function.update]
    · simp [setCells, Function.update, h1, h2, clearGrid]

/-- C5 counterexample: two coincident unit-length external-perimeter
segments from different entities form two islands; rasterization order makes
the second island's `distribute_edge` overwrite every cell the first one
wrote (last write wins), so after `reckon_islands` the first segment — of
length `1 ≥ pixel_size/2` and island id `0` — has NO pixel holding its
island id. -/
theorem c5_raster_covering_counterexample :
    ∃ li g, reckon_islands envT layerC5 true gridC5 linesC5 paramsT = some (li, g) ∧
      linesC5.get? 0 = some lineC5A ∧ reckonMapping envT linesC5 0 = some 0 ∧
      g.pixel_size / 2 ≤ lineC5A.len ∧ ∀ c, g.cells c ≠ some 0 := by
  refine ⟨(reckonIslandsCore envT 0 1 true gridC5 linesC5 paramsT).1,
    (reckonIslandsCore envT 0 1 true gridC5 linesC5 paramsT).2, reckonC5_eq, rfl,
    reckonMappingC5_zero, ?_, coreGridC5_cells⟩
  rw [coreGridC5, rasterC5]
  show (1 : ℚ) / 2 ≤ 1
  norm_num


theorem updateNth_length {α : Type} (l : List α) (n : ℕ) (f : α → α) :
    (updateNth l n f).length = l.length := by
  induction l generalizing n with
  | nil => rfl
  | cons a as ih =>
    cases n with
    | zero => rfl
    | succ m => simp [updateNth, ih]

theorem updateNth_get_self {α : Type} (l : List α) (n : ℕ) (f : α → α) :
    (updateNth l n f).get? n = (l.get? n).map f := by
  induction l generalizing n with
  | nil => rfl
  | cons a as ih =>
    cases n with
    | zero => rfl
    | succ m => simpa [updateNth] using ih m

theorem updateNth_get_other {α : Type} (l : List α) (n m : ℕ) (f : α → α) (h : m ≠ n) :
    (updateNth l n f).get? m = l.get? m := by
  induction l generalizing n m with
  | nil => rfl
  | cons a as ih =>
    cases n with
    | zero =>
      cases m with
      | zero => exact absurd rfl h
      | succ k => rfl
    | succ n2 =>
      cases m with
      | zero => rfl
      | succ k => simpa [updateNth] using ih n2 k (by omega)

theorem connAdd_area_self (m : List (ℕ × IslandConnection)) (k : ℕ) (c : IslandConnection) :
    areaOf (List.lookup k (connAdd m k c)) = areaOf (List.lookup k m) + c.area := by
  induction m with
  | nil => simp [connAdd, List.lookup, areaOf]
  | cons kv rest ih =>
    obtain ⟨k1, v⟩ := kv
    by_cases hk : k1 = k
    · subst hk
      simp [connAdd, List.lookup, areaOf, IslandConnection.add]
    · simp only [connAdd, if_neg hk, List.lookup]
      rw [show (k == k1) = false from by simpa using Ne.symm hk]
      exact ih

theorem connAdd_lookup_other (m : List (ℕ × IslandConnection)) (k k2 : ℕ)
    (c : IslandConnection) (h : k2 ≠ k) :
    List.lookup k2 (connAdd m k c) = List.lookup k2 m := by
  induction m with
  | nil => simp [connAdd, List.lookup, show (k2 == k) = false from by simpa using h]
  | cons kv rest ih =>
    obtain ⟨k1, v⟩ := kv
    by_cases hk : k1 = k
    · subst hk
      simp [connAdd, List.lookup, show (k2 == k1) = false from by simpa using h]
    · simp only [connAdd, if_neg hk, List.lookup]
      cases hbe : (k2 == k1) <;> simp [ih]

theorem overlapStep_length (A z : ℚ) (cu pr : Option ℕ) (ctr : Vec2) (islands : List Island) :
    (overlapStep A z cu pr ctr islands).length = islands.length := by
  unfold overlapStep
  cases cu with
  | none => rfl
  | some a =>
    cases pr with
    | none => rfl
    | some b => exact updateNth_length islands a _

theorem overlapFold_length (cur prev : PixelGrid) (z : ℚ) :
    ∀ (L : List (ℤ × ℤ)) (islands : List Island),
      (L.foldl (fun isl c => overlapStep cur.pixel_area z (cur.get_pixel c)
        (prev.get_pixel c) (cur.get_pixel_center c) isl) islands).length = islands.length := by
  intro L
  induction L with
  | nil => intro islands; rfl
  | cons c L ih =>
    intro islands
    simp only [List.foldl_cons]
    rw [ih, overlapStep_length]

theorem overlapSweep_length (cur prev : PixelGrid) (z : ℚ) (islands : List Island) :
    (overlapSweep cur prev z islands).length = islands.length :=
  overlapFold_length cur prev z _ islands

theorem overlapStep_none_left (A z : ℚ) (X : Option ℕ) (ctr : Vec2)
    (islands : List Island) : overlapStep A z none X ctr islands = islands := rfl

theorem overlapStep_none_right (A z : ℚ) (a : ℕ) (ctr : Vec2)
    (islands : List Island) : overlapStep A z (some a) none ctr islands = islands := rfl

theorem connAreaAt_eq (islands : List Island) (ci pi2 : ℕ) (isl : Island)
    (h : islands.get? ci = some isl) :
    connAreaAt islands ci pi2 = areaOf (List.lookup pi2 isl.connected_islands) := by
  unfold connAreaAt
  rw [h]

theorem connAreaAt_updateNth_self (islands : List Island) (n pi2 : ℕ) (F : Island → Island)
    (isl : Island) (h : islands.get? n = some isl) :
    connAreaAt (updateNth islands n F) n pi2 =
      areaOf (List.lookup pi2 (F isl).connected_islands) := by
  unfold connAreaAt
  rw [updateNth_get_self, h, Option.map_some']

theorem connAreaAt_updateNth_other (islands : List Island) (n ci pi2 : ℕ)
    (F : Island → Island) (h : ci ≠ n) :
    connAreaAt (updateNth islands n F) ci pi2 = connAreaAt islands ci pi2 := by
  unfold connAreaAt
  rw [updateNth_get_other _ _ _ _ h]

theorem connAreaAt_overlapStep (A z : ℚ) (a b : ℕ) (ctr : Vec2) (islands : List Island)
    (ci pi2 : ℕ) (hlt : ci < islands.length) :
    connAreaAt (overlapStep A z (some a) (some b) ctr islands) ci pi2 =
      connAreaAt islands ci pi2 + (if a = ci ∧ b = pi2 then A else 0) := by
  by_cases hac : a = ci
  · subst hac
    obtain ⟨isl, hisl⟩ : ∃ isl, islands.get? a = some isl := by
      cases hg : islands.get? a with
      | none => rw [List.get?_eq_none] at hg; omega
      | some isl2 => exact ⟨isl2, rfl⟩
    rw [connAreaAt_eq islands a pi2 isl hisl]
    show connAreaAt (updateNth islands a _) a pi2 = _
    rw [connAreaAt_updateNth_self islands a pi2 _ isl hisl]
    show areaOf (List.lookup pi2
      (connAdd isl.connected_islands b ⟨A, A • to3d ctr z, A • ctr.cwiseProduct ctr⟩)) = _
    by_cases hbp : b = pi2
    · subst hbp
      rw [connAdd_area_self]
      simp
    · rw [connAdd_lookup_other _ _ _ _ (fun h2 => hbp h2.symm)]
      simp [hbp]
  · show connAreaAt (updateNth islands a _) ci pi2 = _
    rw [connAreaAt_updateNth_other islands a ci pi2 _ (fun h2 => hac h2.symm)]
    simp [hac]

theorem overlapFold_area (cur prev : PixelGrid) (z : ℚ) (ci pi2 : ℕ) :
    ∀ (L : List (ℤ × ℤ)) (islands : List Island), ci < islands.length →
      connAreaAt
        (L.foldl (fun isl c => overlapStep cur.pixel_area z (cur.get_pixel c)
          (prev.get_pixel c) (cur.get_pixel_center c) isl) islands) ci pi2 =
      connAreaAt islands ci pi2 + cur.pixel_area *
        ((L.filter fun c => decide (cur.get_pixel c = some ci ∧
          prev.get_pixel c = some pi2)).length : ℚ) := by
  intro L
  induction L with
  | nil =>
    intro islands _
    simp
  | cons c L ih =>
    intro islands hci
    simp only [List.foldl_cons, List.filter_cons]
    rcases hc : cur.get_pixel c with _ | a
    · rw [overlapStep_none_left, ih islands hci]
      simp
    · rcases hp : prev.get_pixel c with _ | b
      · rw [overlapStep_none_right, ih islands hci]
        simp
      · rw [ih _ (by rw [overlapStep_length]; exact hci)]
        rw [connAreaAt_overlapStep _ _ _ _ _ _ _ _ hci]
        by_cases hh : a = ci ∧ b = pi2
        · obtain ⟨rfl, rfl⟩ := hh
          simp only [decide_eq_true_eq, and_self, if_true, List.length_cons]
          push_cast
          ring
        · rw [if_neg hh]
          have hd : ¬ ((some a : Option ℕ) = some ci ∧ (some b : Option ℕ) = some pi2) := by
            intro h2
            exact hh ⟨Option.some.inj h2.1, Option.some.inj h2.2⟩
          simp only [decide_eq_true_eq]
          rw [if_neg hd]
          ring

theorem accumLine_conn (isl : Island) (l : ExtrusionLine) (z fw : ℚ) (f : Bool) :
    (accumLine isl l z fw f).connected_islands = isl.connected_islands := by
  unfold accumLine
  split
  · rfl
  · split <;> rfl

theorem accumFold_conn (z fw : ℚ) (f : Bool) :
    ∀ (ls : List ExtrusionLine) (isl : Island),
      ((ls.foldl (fun i2 l => accumLine i2 l z fw f) isl)).connected_islands =
        isl.connected_islands := by
  intro ls
  induction ls with
  | nil => intro isl; rfl
  | cons l ls ih =>
    intro isl
    simp only [List.foldl_cons]
    rw [ih, accumLine_conn]

theorem islandFold_conn (lines : List ExtrusionLine) (extr : List (ℕ × ℕ))
    (z fw : ℚ) (f : Bool) :
    ∀ (ex : List ℕ) (isl : Island),
      ((ex.foldl (fun isl exIdx =>
        (sliceRange lines (extr.getD exIdx (0, 0))).foldl
          (fun isl2 l => accumLine isl2 l z fw f) isl) isl)).connected_islands =
        isl.connected_islands := by
  intro ex
  induction ex with
  | nil => intro isl; rfl
  | cons e ex ih =>
    intro isl
    simp only [List.foldl_cons]
    rw [ih, accumFold_conn]

theorem islandOfExtrusions_conn (lines : List ExtrusionLine) (extr : List (ℕ × ℕ))
    (ex : List ℕ) (z fw : ℚ) (f : Bool) :
    (islandOfExtrusions lines extr ex z fw f).connected_islands = [] := by
  unfold islandOfExtrusions
  rw [islandFold_conn]

theorem builtIslands_conn (lines : List ExtrusionLine) (extr : List (ℕ × ℕ))
    (z fw : ℚ) (f : Bool) :
    ∀ (ext : List (List ℕ)) (lst : List Island),
      (∀ isl ∈ lst, isl.connected_islands = []) →
      ∀ isl ∈ ext.foldl (fun lst2 ex =>
        if ex.isEmpty then lst2
        else lst2 ++ [islandOfExtrusions lines extr ex z fw f]) lst,
        isl.connected_islands = [] := by
  intro ext
  induction ext with
  | nil => intro lst h isl hm; exact h isl hm
  | cons ex ext ih =>
    intro lst h isl hm
    simp only [List.foldl_cons] at hm
    by_cases he : ex.isEmpty
    · rw [if_pos he] at hm
      exact ih lst h isl hm
    · rw [if_neg he] at hm
      refine ih _ ?_ isl hm
      intro isl2 hm2
      rcases List.mem_append.mp hm2 with h1 | h2
      · exact h isl2 h1
      · rw [List.mem_singleton.mp h2]
        exact islandOfExtrusions_conn lines extr ex z fw f

/-- C6: in the `LayerIslands` returned by `reckon_islands`, for every
current-layer island `ci` and previous-layer island id `pi2`, the
accumulated `connection.area` equals `pixel_area` times the number of grid
cells in which the produced grid holds `ci` and the previous grid holds
`pi2` (both non-`NULL_ISLAND`). -/
theorem c6_overlap_area (env : MathEnv) (layer : Layer) (first : Bool) (prev : PixelGrid)
    (lines : List ExtrusionLine) (params : Params) (li : LayerIslands) (g : PixelGrid)
    (h : reckon_islands env layer first prev lines params = some (li, g))
    (ci pi2 : ℕ) (hci : ci < li.islands.length) :
    connAreaAt li.islands ci pi2 = g.pixel_area * countOverlap g prev ci pi2 := by
  unfold reckon_islands at h
  cases hreg : layer.regions.head? with
  | none =>
    rw [hreg] at h
    exact absurd h (by simp)
  | some r0 =>
    rw [hreg, Option.map_some'] at h
    have h' := Option.some.inj h
    have hli : li = (reckonIslandsCore env layer.slice_z
        (get_flow_width r0 Role.externalPerimeter) first prev lines params).1 := by
      rw [h']
    have hg : g = (reckonIslandsCore env layer.slice_z
        (get_flow_width r0 Role.externalPerimeter) first prev lines params).2 := by
      rw [h']
    subst hli
    subst hg
    have hIs : (reckonIslandsCore env layer.slice_z
        (get_flow_width r0 Role.externalPerimeter) first prev lines params).1.islands =
        overlapSweep (rasterizeLayer env (clearGrid prev) lines (reckonMapping env lines))
          prev layer.slice_z
          (builtIslands lines (reckonExt env lines).1 (reckonExt env lines).2
            layer.slice_z (get_flow_width r0 Role.externalPerimeter) first) := rfl
    have hG : (reckonIslandsCore env layer.slice_z
        (get_flow_width r0 Role.externalPerimeter) first prev lines params).2 =
        rasterizeLayer env (clearGrid prev) lines (reckonMapping env lines) := rfl
    rw [hIs] at hci ⊢
    rw [hG]
    have hci0 : ci < (builtIslands lines (reckonExt env lines).1 (reckonExt env lines).2
        layer.slice_z (get_flow_width r0 Role.externalPerimeter) first).length := by
      rw [overlapSweep_length] at hci
      exact hci
    unfold overlapSweep
    rw [overlapFold_area _ _ _ _ _ _ _ hci0]
    have h0 : connAreaAt (builtIslands lines (reckonExt env lines).1 (reckonExt env lines).2
        layer.slice_z (get_flow_width r0 Role.externalPerimeter) first) ci pi2 = 0 := by
      obtain ⟨isl, hisl⟩ : ∃ isl, (builtIslands lines (reckonExt env lines).1
          (reckonExt env lines).2 layer.slice_z
          (get_flow_width r0 Role.externalPerimeter) first).get? ci = some isl := by
        cases hq : (builtIslands lines (reckonExt env lines).1 (reckonExt env lines).2
            layer.slice_z (get_flow_width r0 Role.externalPerimeter) first).get? ci with
        | none => rw [List.get?_eq_none] at hq; omega
        | some isl2 => exact ⟨isl2, rfl⟩
      rw [connAreaAt_eq _ _ _ _ hisl]
      have hmem : isl ∈ builtIslands lines (reckonExt env lines).1 (reckonExt env lines).2
          layer.slice_z (get_flow_width r0 Role.externalPerimeter) first :=
        List.get?_mem hisl
      have hconn : isl.connected_islands = [] :=
        builtIslands_conn lines (reckonExt env lines).1 layer.slice_z
          (get_flow_width r0 Role.externalPerimeter) first (reckonExt env lines).2 []
          (fun x hx => absurd hx (List.not_mem_nil x)) isl hmem
      rw [hconn]
      rfl
    rw [h0, zero_add]
    rfl

theorem c6_overlap_area_witness :
    ∃ li g, reckon_islands envT layerC5 true gridC5 linesC5 paramsT = some (li, g) ∧
      0 < li.islands.length ∧
      connAreaAt li.islands 0 0 = g.pixel_area * countOverlap g gridC5 0 0 := by
  have hlen : 0 < (reckonIslandsCore envT 0 1 true gridC5 linesC5 paramsT).1.islands.length := by
    have h1 : (reckonIslandsCore envT 0 1 true gridC5 linesC5 paramsT).1.islands =
        overlapSweep (rasterizeLayer envT (clearGrid gridC5) linesC5
          (reckonMapping envT linesC5)) gridC5 0
          (builtIslands linesC5 (reckonExt envT linesC5).1 (reckonExt envT linesC5).2
            0 1 true) := rfl
    rw [h1, overlapSweep_length, reckonExtC5]
    show 0 < (builtIslands linesC5 [(0, 1), (1, 2)] [[0], [1]] 0 1 true).length
    rw [show (builtIslands linesC5 [(0, 1), (1, 2)] [[0], [1]] 0 1 true).length = 2 from rfl]
    norm_num
  exact ⟨_, _, reckonC5_eq, hlen,
    c6_overlap_area envT layerC5 true gridC5 linesC5 paramsT _ _ reckonC5_eq 0 0 hlen⟩


/-- C4: contrary to the spec's empty-in-empty-out sentence, `full_search`
FAILS on a print object with no layers (line 959 indexes
`layers()[layer_count() - 1]`, an out-of-bounds access after the size_t
underflow) and likewise when the last layer has no regions
(`regions()[0]`); the model returns `none` where the source has undefined
behaviour. -/
theorem c4_degenerate_failure (env : MathEnv) (infty : ℚ) (po : PrintObject) (params : Params)
    (h : po.layers = [] ∨ ∃ last, po.layers.get? (po.layers.length - 1) = some last ∧
      last.regions = []) :
    full_search env infty po params = none := by
  rcases h with h | ⟨last, h1, h2⟩
  · simp [full_search, check_extrusions_and_build_graph, h]
  · rw [List.get?_eq_getElem?] at h1
    simp [full_search, check_extrusions_and_build_graph, h1, h2]

theorem c4_degenerate_failure_witness :
    ((⟨[], (2, 2), 1⟩ : PrintObject).layers = [] ∨ ∃ last,
      (⟨[], (2, 2), 1⟩ : PrintObject).layers.get?
        ((⟨[], (2, 2), 1⟩ : PrintObject).layers.length - 1) = some last ∧
      last.regions = []) ∧
    full_search envT 0 ⟨[], (2, 2), 1⟩ paramsT = none := by
  have h : (⟨[], (2, 2), 1⟩ : PrintObject).layers = [] ∨ ∃ last,
      (⟨[], (2, 2), 1⟩ : PrintObject).layers.get?
        ((⟨[], (2, 2), 1⟩ : PrintObject).layers.length - 1) = some last ∧
      last.regions = [] := Or.inl rfl
  exact ⟨h, c4_degenerate_failure envT 0 ⟨[], (2, 2), 1⟩ paramsT h⟩

/-- C7: whenever the local pass and the global pass both produce a result,
`full_search` returns exactly the global support points followed by the
local ones, in order (source lines 1128-1131). -/
theorem c7_full_search_concat (env : MathEnv) (infty : ℚ) (po : PrintObject) (params : Params)
    (li : Issues) (graph : List LayerIslands) (gi : Issues)
    (h1 : check_extrusions_and_build_graph env po params = some (li, graph))
    (h2 : check_global_stability env infty
      (mkSupportGridFilter po params.min_distance_between_support_points) graph params =
      some gi) :
    full_search env infty po params = some ⟨gi.support_points ++ li.support_points⟩ := by
  unfold full_search
  simp [h1, h2]


theorem checkC7 : check_extrusions_and_build_graph envT poC5 paramsT =
    some (⟨[]⟩, [liC7]) := rfl

theorem liC7_islands : liC7.islands = [] := by
  have h1 : liC7.islands = overlapSweep
      (rasterizeLayer envT (clearGrid (mkPixelGrid poC5 1)) [] (reckonMapping envT []))
      (mkPixelGrid poC5 1) 0
      (builtIslands [] (reckonExt envT []).1 (reckonExt envT []).2 0 1 true) := rfl
  apply List.length_eq_zero.mp
  rw [h1, overlapSweep_length]
  rfl

theorem globalLayerStep_empty (env : MathEnv) (infty : ℚ) (params : Params)
    (acc : ActiveObjectParts × List (ℕ × ℕ) × List (ℕ × IslandConnection) ×
      List SupportPoint × SupportGridFilter)
    (li : LayerIslands) (h : li.islands = []) :
    globalLayerStep env infty params acc li =
      some (acc.1, [], [], acc.2.2.2.1, acc.2.2.2.2) := by
  unfold globalLayerStep
  rw [h]
  rfl

theorem globalC7 : check_global_stability envT 0
    (mkSupportGridFilter poC5 paramsT.min_distance_between_support_points) [liC7] paramsT =
    some ⟨[]⟩ := by
  unfold check_global_stability
  rw [show ([liC7].foldlM (globalLayerStep envT 0 paramsT)
      (initialParts, [], [], [],
        mkSupportGridFilter poC5 paramsT.min_distance_between_support_points)) =
    (globalLayerStep envT 0 paramsT
      (initialParts, [], [], [],
        mkSupportGridFilter poC5 paramsT.min_distance_between_support_points) liC7).bind
      (fun b => [].foldlM (globalLayerStep envT 0 paramsT) b) from rfl]
  rw [globalLayerStep_empty envT 0 paramsT _ liC7 liC7_islands]
  rfl

theorem c7_full_search_concat_witness :
    check_extrusions_and_build_graph envT poC5 paramsT = some (⟨[]⟩, [liC7]) ∧
    check_global_stability envT 0
      (mkSupportGridFilter poC5 paramsT.min_distance_between_support_points) [liC7] paramsT =
      some ⟨[]⟩ ∧
    full_search envT 0 poC5 paramsT =
      some ⟨Issues.support_points ⟨[]⟩ ++ Issues.support_points ⟨[]⟩⟩ :=
  ⟨checkC7, globalC7,
    c7_full_search_concat envT 0 poC5 paramsT ⟨[]⟩ [liC7] ⟨[]⟩ checkC7 globalC7⟩


/-- C10: the global pass's line gating (source lines 910-911) diverts every
zero-length external line into the distance-accumulation branch, so
`is_stable_while_extruding` is never called on one; the degenerate segment
the local analyzer prepends at each path's first point (line 355) has
length 0 (with the square root exact at 0); and any extrusion line whose
cached length is nonzero has `b - a ≠ 0`, so the normalization inside the
stability test never sees the zero vector. -/
theorem c10_zero_length_diverted (env : MathEnv) (params : Params) (h0 : env.sqrt 0 = 0) :
    (∀ ud line, line.len = 0 → shouldAccumulate params ud line = true) ∧
    (∀ layer_z ext st line, line.len = 0 →
      globalLineStep env params layer_z ext st line =
        some { st with unchecked_dist := st.unchecked_dist + line.len }) ∧
    (∀ params2 origin role mm3 p0 rest,
      (resamplePath env params2 origin role mm3 (p0 :: rest)).head? =
        some (mkLine env p0 p0 origin role mm3) ∧
      (mkLine env p0 p0 origin role mm3).len = 0) ∧
    (∀ ud line, shouldAccumulate params ud line = false → line.len ≠ 0) ∧
    (∀ a b origin role mm3, (mkLine env a b origin role mm3).len ≠ 0 → b - a ≠ 0) := by
  have hacc : ∀ ud line, (line : ExtrusionLine).len = 0 →
      shouldAccumulate params ud line = true := by
    intro ud line hl
    simp [shouldAccumulate, hl]
  refine ⟨hacc, ?_, ?_, ?_, ?_⟩
  · intro layer_z ext st line hl
    unfold globalLineStep
    rw [if_pos (hacc st.unchecked_dist line hl)]
  · intro params2 origin role mm3 p0 rest
    refine ⟨rfl, ?_⟩
    show env.sqrt (Vec2.sqNorm (p0 - p0)) = 0
    have hz : p0 - p0 = (⟨0, 0⟩ : Vec2) := by
      simp
    rw [hz]
    simpa [Vec2.sqNorm] using h0
  · intro ud line h
    intro hl
    rw [hacc ud line hl] at h
    simp at h
  · intro a b origin role mm3 hne heq
    apply hne
    have hab : a - b = (⟨0, 0⟩ : Vec2) := by
      have hx : b.x - a.x = 0 := congrArg Vec2.x heq
      have hy : b.y - a.y = 0 := congrArg Vec2.y heq
      simp only [vec2_sub_def]
      have : a.x - b.x = 0 := by linarith [hx]
      have h2 : a.y - b.y = 0 := by linarith [hy]
      rw [this, h2]
    show env.sqrt (Vec2.sqNorm (a - b)) = 0
    rw [hab]
    simpa [Vec2.sqNorm] using h0

theorem c10_zero_length_diverted_witness :
    envT.sqrt 0 = 0 ∧
    globalLineStep envT paramsT 0 [] stW (mkLine envT ⟨0, 0⟩ ⟨0, 0⟩ 0 Role.other 1) =
      some { stW with unchecked_dist := stW.unchecked_dist +
        (mkLine envT ⟨0, 0⟩ ⟨0, 0⟩ 0 Role.other 1).len } := by
  have h0 : envT.sqrt 0 = 0 := by norm_num [envT, sqrtT]
  have hlen := ((c10_zero_length_diverted envT paramsT h0).2.2.1 paramsT 0 Role.other 1
    ⟨0, 0⟩ []).2
  exact ⟨h0, (c10_zero_length_diverted envT paramsT h0).2.1 0 [] stW _ hlen⟩

end SupportSpots
